import Mathlib

/-!
Verification of the Cross-Source Reconciliation and Scoring Engine
(src/backend/server.js).

The JavaScript source is shallowly embedded below.  Conventions:

* JS strings are `List Char`; string literals are written `"...".data`.
* JS numbers are `ℚ` (the arithmetic in the engine is modelled exactly;
  IEEE-754 rounding is not modelled).  `x.toFixed(k)` rounding — nearest,
  ties toward +∞ — is `⌊x·10^k + 1/2⌋ / 10^k`.
* `undefined`/missing fields are `Option _`; JS truthiness (`x || d`,
  `if (x)`) is modelled by the `jsOr*` / `*Truthy` helpers, which treat
  `none`, `0` and the empty string as falsy.
* `Array.prototype.sort` (guaranteed stable since ES2019) is modelled by
  `sortByLe`, a stable insertion sort; for the total preorders used by the
  engine the stable sorted result is unique, so any stable sort is a
  faithful model.
* The two transcendental helpers (`calculateDistance`, the haversine
  formula over `Math.sin`/`Math.cos`/`Math.atan2`, and `Math.log10` in the
  volume score) are not exactly representable over `ℚ`; they are abstracted
  as the parameter record `ExternalMath`.  No claim below depends on their
  values.
-/

/-- JS whitespace characters matched by the regex class `\s` (the subset
that can occur in the engine's inputs). -/
def jsSpace (c : Char) : Bool :=
  c = ' ' || c = '\t' || c = '\n' || c = '\r' || c = '\x0b' || c = '\x0c'

/-- Characters matched by the regex class `\w` (ASCII word characters). -/
def isWordChar (c : Char) : Bool :=
  c.isAlphanum || c = '_'

/-- Does `l` start with `p`?  (Models `String.prototype.startsWith`.) -/
def startsWithL : List Char → List Char → Bool
  | _, [] => true
  | [], _ :: _ => false
  | a :: as, b :: bs => a = b && startsWithL as bs

/-- Does `hay` contain `sub` as a contiguous substring?
(Models `String.prototype.includes` and a regex test for a literal.) -/
def listHasSub (hay sub : List Char) : Bool :=
  if startsWithL hay sub then true
  else
    match hay with
    | [] => false
    | _ :: t => listHasSub t sub

/-- Split a list at every occurrence of `c`, keeping empty segments.
(Models `String.prototype.split(c)`.) -/
def splitOnChar (c : Char) (l : List Char) : List (List Char) :=
  l.foldr
    (fun x acc =>
      match acc with
      | cur :: rest => if x = c then [] :: cur :: rest else (x :: cur) :: rest
      | [] => [[x]])
    [[]]

/-- The maximal runs of non-whitespace characters of `l`, in order.
Used to model regex word-boundary (`\b`) matching and `\s+` collapsing over
strings that contain only word characters and whitespace. -/
def wsTokens (l : List Char) : List (List Char) :=
  (l.foldr
    (fun x acc =>
      match acc with
      | cur :: rest => if jsSpace x then [] :: cur :: rest else (x :: cur) :: rest
      | [] => [[x]])
    [[]]).filter (fun t => t ≠ [])

/-- Join tokens with single spaces (the net effect of the source's
trailing `.trim().replace(/\s+/g, ' ')` normalisation). -/
def joinTokens : List (List Char) → List Char
  | [] => []
  | [t] => t
  | t :: rest => t ++ ' ' :: joinTokens rest

/-- JS `a || d` for an optional number (`none` and `0` are falsy). -/
def jsOrQ (x : Option ℚ) (d : ℚ) : ℚ :=
  match x with
  | none => d
  | some v => if v = 0 then d else v

/-- JS `a || d` for an optional natural number. -/
def jsOrN (x : Option ℕ) (d : ℕ) : ℕ :=
  match x with
  | none => d
  | some v => if v = 0 then d else v

/-- JS `a || d` for an optional string (`none` and `""` are falsy). -/
def jsOrS (x : Option (List Char)) (d : List Char) : List Char :=
  match x with
  | none => d
  | some v => if v = [] then d else v

/-- JS truthiness of an optional string. -/
def strTruthy (x : Option (List Char)) : Bool :=
  match x with
  | none => false
  | some v => v ≠ []

/-- JS truthiness of an optional number. -/
def numTruthy (x : Option ℚ) : Bool :=
  match x with
  | none => false
  | some v => v ≠ 0

/-- Stable insertion of `x` into `l`: `x` is placed before the first
element `y` with `le x y`. -/
def insertSorted {α : Type} (le : α → α → Prop) [DecidableRel le] (x : α) :
    List α → List α
  | [] => [x]
  | y :: ys => if le x y then x :: y :: ys else y :: insertSorted le x ys

/-- Stable sort: for a total preorder `le` this computes the unique stable
`le`-sorted permutation, the result ECMAScript guarantees for
`Array.prototype.sort` with the corresponding comparator. -/
def sortByLe {α : Type} (le : α → α → Prop) [DecidableRel le] :
    List α → List α
  | [] => []
  | x :: xs => insertSorted le x (sortByLe le xs)

/-- `x.toFixed(2)` then `parseFloat`: round to 2 decimal places, ties
toward +∞ (the ECMAScript `toFixed` tie rule). -/
def toFixed2 (q : ℚ) : ℚ := ((⌊q * 100 + 1/2⌋ : ℤ) : ℚ) / 100

/-- `x.toFixed(3)` then `parseFloat`: round to 3 decimal places. -/
def toFixed3 (q : ℚ) : ℚ := ((⌊q * 1000 + 1/2⌋ : ℤ) : ℚ) / 1000

/-- `x.toFixed(1)` then `parseFloat`: round to 1 decimal place. -/
def toFixed1 (q : ℚ) : ℚ := ((⌊q * 10 + 1/2⌋ : ℤ) : ℚ) / 10

/-- `Math.round` (nearest, ties toward +∞). -/
def jsMathRound (q : ℚ) : ℤ := ⌊q + 1/2⌋

/-- Decimal digits to a natural number. -/
def digitsToNat (l : List Char) : ℕ :=
  l.foldl (fun n c => n * 10 + (c.toNat - 48)) 0

/-- A simplified model of `parseFloat`, covering the plain decimal numerals
(optional sign, digits, optional fraction, trailing garbage ignored) that
the engine receives as query parameters; `none` models `NaN`.  Exponents,
`Infinity` and exotic whitespace are outside the inputs of interest. -/
def parseFloatQ (s : List Char) : Option ℚ :=
  let s1 := s.dropWhile jsSpace
  let sign : ℚ := match s1 with
    | '-' :: _ => -1
    | _ => 1
  let s2 := match s1 with
    | '-' :: r => r
    | '+' :: r => r
    | r => r
  let intPart := s2.takeWhile Char.isDigit
  let s3 := s2.dropWhile Char.isDigit
  let fracPart := match s3 with
    | '.' :: r => r.takeWhile Char.isDigit
    | _ => []
  if intPart = [] ∧ fracPart = [] then none
  else
    some (sign * ((digitsToNat intPart : ℚ) +
      (digitsToNat fracPart : ℚ) / (10 : ℚ) ^ fracPart.length))

/-- Levenshtein edit distance, the function computed by the dynamic-program
matrix of `levenshteinDistance` (server.js 968-990), in recursive form.
The fuel argument bounds the recursion depth; `a.length + b.length` is
always sufficient because every recursive call shortens `a ++ b`. -/
def levFuel : ℕ → List Char → List Char → ℕ
  | _, [], b => b.length
  | _, a :: as, [] => (a :: as).length
  | 0, _ :: _, _ :: _ => 0
  | fuel + 1, x :: xs, y :: ys =>
      if x = y then levFuel fuel xs ys
      else 1 + min (levFuel fuel xs ys)
        (min (levFuel fuel (x :: xs) ys) (levFuel fuel xs (y :: ys)))

/-- `levenshteinDistance` (server.js 968-990). -/
def levenshteinDistance (a b : List Char) : ℕ :=
  levFuel (a.length + b.length) a b

/-- `advancedStringSimilarity` (server.js 949-966): a 0.6/0.4 blend of
normalised Levenshtein similarity and token Dice similarity, with the
Levenshtein part alone as fallback when either side has no token longer
than one character. -/
def advancedStringSimilarity (s1 s2 : List Char) : ℚ :=
  if s1 = [] ∨ s2 = [] then 0
  else
    let levenshteinSim : ℚ :=
      1 - (levenshteinDistance s1 s2 : ℚ) / (max s1.length s2.length : ℚ)
    let tokens1 := (splitOnChar ' ' s1).filter (fun t => 1 < t.length)
    let tokens2 := (splitOnChar ' ' s2).filter (fun t => 1 < t.length)
    if tokens1 = [] ∨ tokens2 = [] then levenshteinSim
    else
      let intersection := tokens1.filter (fun t => tokens2.contains t)
      let tokenSimilarity : ℚ :=
        (2 * intersection.length : ℚ) /
          ((tokens1.length : ℚ) + (tokens2.length : ℚ))
      levenshteinSim * (6/10) + tokenSimilarity * (4/10)

/-- The stop-list of generic restaurant-type words removed by
`normalizeRestaurantName` (server.js 944). -/
def nameStopWords : List (List Char) :=
  ["restaurant".data, "grill".data, "bar".data, "cafe".data, "kitchen".data,
   "house".data, "place".data, "diner".data, "eatery".data, "bistro".data,
   "pub".data, "inn".data, "lounge".data, "shop".data, "store".data]

/-- `normalizeRestaurantName` (server.js 938-947): lower-case, `&` → `and`,
strip non-word characters, delete stop words, trim and collapse spaces.
After stripping, the string holds only word characters and whitespace, so
the word-boundary stop-word deletion plus final trim/collapse is exactly:
tokenize on whitespace, drop stop-word tokens, re-join with single spaces. -/
def normalizeRestaurantName (name : List Char) : List Char :=
  let lowered := name.map Char.toLower
  let amped := lowered.flatMap (fun c => if c = '&' then "and".data else [c])
  let stripped := amped.filter (fun c => isWordChar c || jsSpace c)
  joinTokens ((wsTokens stripped).filter (fun t => ¬ t ∈ nameStopWords))

/-- `normalizeAddress` (server.js 909-912): lower-case, strip non-word
characters, collapse whitespace, trim — i.e. whitespace tokens re-joined
with single spaces. -/
def normalizeAddress (address : List Char) : List Char :=
  let lowered := address.map Char.toLower
  let stripped := lowered.filter (fun c => isWordChar c || jsSpace c)
  joinTokens (wsTokens stripped)

/-- The name-similarity measure used by `calculateMatchScore`
(server.js 932): `advancedStringSimilarity` over normalised names. -/
def nameSimilarity (a b : List Char) : ℚ :=
  advancedStringSimilarity (normalizeRestaurantName a) (normalizeRestaurantName b)

/-- `calculateAddressSimilarity` (server.js 993-1000): compare the segment
before the first comma of the two normalised addresses.  (Normalisation has
already removed commas, so the whole normalised address is compared.) -/
def calculateAddressSimilarity (addr1 addr2 : List Char) : ℚ :=
  if addr1 = [] ∨ addr2 = [] then 0
  else
    advancedStringSimilarity
      ((normalizeAddress addr1).takeWhile (fun c => c ≠ ','))
      ((normalizeAddress addr2).takeWhile (fun c => c ≠ ','))

/-- The transcendental parts of the source, abstracted: `dist` is
`calculateDistance` (haversine, server.js 1644-1654) and `log10` is
`Math.log10` as used by the volume score.  They are parameters of the
embedding; no verified claim depends on their values. -/
structure ExternalMath where
  dist : ℚ → ℚ → ℚ → ℚ → ℚ
  log10 : ℚ → ℚ

/-- A dummy instance used for concrete evaluations in which the abstracted
transcendental functions are never consulted. -/
def emZero : ExternalMath := ⟨fun _ _ _ _ => 0, fun _ => 0⟩

/-- `calculateGeoSimilarity` (server.js 1002-1017): step function of the
haversine distance; `0` when either coordinate is missing. -/
def calculateGeoSimilarity (em : ExternalMath)
    (loc1 loc2 : Option (ℚ × ℚ)) : ℚ :=
  match loc1, loc2 with
  | some (lat1, lng1), some (lat2, lng2) =>
      let d := em.dist lat1 lng1 lat2 lng2
      if d < 1/20 then 1
      else if d < 1/5 then 8/10
      else if d < 1/2 then 5/10
      else 0
  | _, _ => 0

/-- The name/address/location projection of a record that
`calculateMatchScore` actually reads (server.js 869-872, 930-936). -/
structure MatchView where
  name : List Char
  address : List Char
  location : Option (ℚ × ℚ)

/-- `calculateMatchScore` (server.js 930-936): the composite match score
`0.55·nameSimilarity + 0.35·addressSimilarity + 0.10·geoSimilarity`. -/
def calculateMatchScore (em : ExternalMath) (r1 r2 : MatchView) : ℚ :=
  nameSimilarity r1.name r2.name * (55/100) +
    calculateAddressSimilarity r1.address r2.address * (35/100) +
    calculateGeoSimilarity em r1.location r2.location * (10/100)

/-- `calculatePlatformConsistency` (server.js 1660-1686). -/
def calculatePlatformConsistency (gRating : Option ℚ) (gCount : Option ℕ)
    (yRating : Option ℚ) (yCount : Option ℕ) : ℚ :=
  let gC := jsOrN gCount 0
  let yC := jsOrN yCount 0
  match gRating, yRating with
  | some gR, some yR =>
      let ratingDiff := |gR - yR|
      let base := 1 - ratingDiff / 4
      let totalReviews := gC + yC
      let blended :=
        if 0 < totalReviews then
          let countQuot : ℚ := (min gC yC : ℚ) / (max gC yC : ℚ)
          let penalised :=
            if min gC yC < 10 ∧ 20 < totalReviews then base * (8/10) else base
          penalised * (7/10) + countQuot * (3/10)
        else base * (7/10)
      max 0 (min 1 (toFixed2 blended))
  | _, _ => 7/10

/-- A listing as produced by the Google Places mapping
(server.js 369-381).  `photoReference` is never read by the engine and is
omitted. -/
structure GoogleListing where
  id : List Char := []
  name : List Char := []
  address : List Char := []
  rating : Option ℚ := none
  priceLevel : Option (List Char) := none
  cuisine : List Char := []
  location : Option (ℚ × ℚ) := none
  totalRatings : ℕ := 0
  businessStatus : Option (List Char) := none
  permanentlyClosedFactor : ℕ := 1
deriving DecidableEq

/-- A listing as produced by the Yelp mapping (server.js 475-487).
`isChain` and `yelpVerified` are never read by the engine after mapping and
are omitted. -/
structure YelpListing where
  id : List Char := []
  name : List Char := []
  address : List Char := []
  rating : Option ℚ := none
  priceLevel : List Char := "$".data
  cuisine : List Char := []
  location : Option (ℚ × ℚ) := none
  imageUrl : Option (List Char) := none
  reviewCount : ℕ := 0
deriving DecidableEq

/-- The dynamic restaurant record flowing through merge, enhancement,
filtering and scoring.  Optional fields model JS `undefined`. -/
structure Restaurant where
  name : List Char := []
  address : List Char := []
  cuisine : List Char := []
  location : Option (ℚ × ℚ) := none
  rating : Option ℚ := none
  totalRatings : Option ℕ := none
  reviewCount : Option ℕ := none
  priceLevel : Option (List Char) := none
  businessStatus : Option (List Char) := none
  permanentlyClosedFactor : Option ℕ := none
  googleId : Option (List Char) := none
  yelpId : Option (List Char) := none
  imageUrl : Option (List Char) := none
  yelpRating : Option ℚ := none
  yelpReviewCount : Option ℕ := none
  yelpImageUrl : Option (List Char) := none
  platform : List Char := []
  source : List Char := []
  crossPlatformVerified : Bool := false
  platformConsistency : Option ℚ := none
  cuisineType : List Char := []
  priceCategory : List Char := []
  estimatedWaitTime : List Char := []
  specialFeatures : List (List Char) := []
deriving DecidableEq

/-- `{ ...g, platform: 'google', source: 'Google Places', googleId: g.id }`
(server.js 855). -/
def gPrep (g : GoogleListing) : Restaurant :=
  { name := g.name, address := g.address, cuisine := g.cuisine,
    location := g.location, rating := g.rating,
    totalRatings := some g.totalRatings, priceLevel := g.priceLevel,
    businessStatus := g.businessStatus,
    permanentlyClosedFactor := some g.permanentlyClosedFactor,
    platform := "google".data, source := "Google Places".data,
    googleId := some g.id }

/-- `{ ...y, platform: 'yelp', source: 'Yelp', yelpId: y.id }`
(server.js 901). -/
def yPrep (y : YelpListing) : Restaurant :=
  { name := y.name, address := y.address, cuisine := y.cuisine,
    location := y.location, rating := y.rating,
    priceLevel := some y.priceLevel, imageUrl := y.imageUrl,
    reviewCount := some y.reviewCount,
    platform := "yelp".data, source := "Yelp".data, yelpId := some y.id }

/-- `detectChainRestaurant` (server.js 817-821). -/
def detectChainRestaurant (name : List Char) : Bool :=
  let nameLower := name.map Char.toLower
  (["mcdonald\x27s".data, "burger king".data, "subway".data,
    "starbucks".data, "chipotle".data, "pizza hut".data, "domino\x27s".data,
    "kfc".data, "taco bell".data, "wendy\x27s".data,
    "panda express".data]).any (fun chain => listHasSub nameLower chain)

/-- The regional entries of `ENHANCED_CUISINE_KEYWORDS` (server.js 72-77),
in declaration order. -/
def regionalCuisineKeywords : List (List Char × List (List Char)) :=
  [("mexican".data, ["mexican".data, "mexicana".data, "guadalajara".data,
      "oaxaca".data, "puebla".data, "yucatan".data]),
   ("tex-mex".data, ["tex-mex".data, "southwestern".data, "border".data,
      "austin".data, "san-antonio".data]),
   ("peruvian".data, ["peruvian".data, "lima".data, "ceviche".data,
      "inca".data, "pisco".data]),
   ("spanish".data, ["spanish".data, "tapas".data, "paella".data,
      "andaluz".data, "barcelona".data])]

/-- The style entries of `ENHANCED_CUISINE_KEYWORDS` (server.js 68-71), in
declaration order (the `regional` key is skipped by the source loop). -/
def styleCuisineKeywords : List (List Char × List (List Char)) :=
  [("authentic".data, ["traditional".data, "family".data, "authentic".data,
      "abuela".data, "casa".data, "familia".data, "home-made".data,
      "generational".data]),
   ("upscale".data, ["cocina".data, "cantina".data, "contemporary".data,
      "modern".data, "craft".data, "artisanal".data, "chef-driven".data]),
   ("casual".data, ["taqueria".data, "grill".data, "truck".data,
      "spot".data, "joint".data, "hole-in-wall".data, "neighborhood".data]),
   ("fusion".data, ["fusion".data, "modern".data, "contemporary".data,
      "nuevo".data, "innovative".data, "creative".data])]

/-- `charAt(0).toUpperCase() + slice(1)`. -/
def capitalizeFirst : List Char → List Char
  | [] => []
  | c :: r => c.toUpper :: r

/-- `classifyEnhancedCuisineType` (server.js 1034-1050). -/
def classifyEnhancedCuisineType (name cuisine : List Char) : List Char :=
  let combined := name.map Char.toLower ++ ' ' :: cuisine.map Char.toLower
  match regionalCuisineKeywords.find?
      (fun p => p.2.any (fun k => listHasSub combined k)) with
  | some p => capitalizeFirst p.1 ++ " Regional".data
  | none =>
    match styleCuisineKeywords.find?
        (fun p => p.2.any (fun k => listHasSub combined k)) with
    | some p => capitalizeFirst p.1
    | none => if cuisine ≠ "Restaurant".data then cuisine else "Standard".data

/-- `categorizePriceLevel` (server.js 1052-1058). -/
def categorizePriceLevel (priceLevelString : List Char) : List Char :=
  let level := if priceLevelString = [] then 1 else priceLevelString.length
  if 4 ≤ level then "Luxury".data
  else if level = 3 then "Expensive".data
  else if level = 2 then "Moderate".data
  else "Budget".data

/-- JS `rating && rating >= t` for an optional rating. -/
def ratingAtLeast (rating : Option ℚ) (t : ℚ) : Bool :=
  numTruthy rating && decide (t ≤ jsOrQ rating 0)

/-- Add to a JS `Set` modelled as an insertion-ordered duplicate-free
list. -/
def addIfNew (l : List (List Char)) (s : List Char) : List (List Char) :=
  if s ∈ l then l else l ++ [s]

/-- `identifyEnhancedSpecialFeatures` (server.js 1060-1082).  The mapped
listing records never carry a `types` field, so `restaurant.types || []`
is always `[]` and the types-based disjuncts never fire. -/
def identifyEnhancedSpecialFeatures (r : Restaurant) : List (List Char) :=
  let nm := r.name.map Char.toLower
  let cz := r.cuisine.map Char.toLower
  let f1 := if listHasSub nm "tequila".data || listHasSub nm "mezcal".data ||
      listHasSub nm "cocktail bar".data then
      addIfNew [] "Craft Cocktails".data else []
  let f2 := if listHasSub nm "rooftop".data || listHasSub nm "patio".data ||
      listHasSub nm "garden".data then
      addIfNew f1 "Outdoor Seating".data else f1
  let f3 := if listHasSub nm "24 hour".data ||
      listHasSub nm "late night".data || listHasSub nm "midnight".data then
      addIfNew f2 "Late Night".data else f2
  let f4 := if listHasSub cz "vegan".data || listHasSub cz "vegetarian".data ||
      listHasSub nm "plant-based".data then
      addIfNew f3 "Plant-Based Options".data else f3
  let f5 := if listHasSub nm "family".data || listHasSub nm "kids menu".data ||
      listHasSub nm "children".data then
      addIfNew f4 "Family-Friendly".data else f4
  let f6 := if listHasSub nm "wine bar".data || listHasSub nm "wine list".data ||
      listHasSub nm "sommelier".data then
      addIfNew f5 "Extensive Wine List".data else f5
  let f7 := if listHasSub nm "chef\x27s table".data ||
      listHasSub nm "tasting menu".data || listHasSub cz "fine dining".data then
      addIfNew f6 "Chef-Driven / Fine Dining".data else f6
  let f8 := if ratingAtLeast r.rating (47/10) then
      addIfNew f7 "Highly-Rated".data else f7
  let rc := jsOrN r.reviewCount (jsOrN r.totalRatings 0)
  let f9 := if ratingAtLeast r.rating (45/10) && decide (10 < rc) &&
      decide (rc < 100) then addIfNew f8 "Hidden Gem".data else f8
  let f10 := if detectChainRestaurant r.name then
      addIfNew f9 "Chain Restaurant".data else f9
  if r.source ≠ [] && listHasSub r.source "Yelp".data &&
      listHasSub r.source "Google".data then
    addIfNew f10 "Cross-Platform Verified".data
  else f10

/-- `estimateWaitTime` (server.js 1633-1642).  It is called on the record
before the enhanced `priceCategory` field is attached, so the price
category it sees is the (empty) pre-enhancement value. -/
def estimateWaitTime (r : Restaurant) : List Char :=
  let rating := jsOrQ r.rating (35/10)
  let rc := jsOrN r.reviewCount (jsOrN r.totalRatings 20)
  if r.priceCategory = "Luxury".data ∨ (45/10 ≤ rating ∧ 200 < rc) then
    "30-60 min".data
  else if r.priceCategory = "Expensive".data ∨ (42/10 ≤ rating ∧ 100 < rc) then
    "20-45 min".data
  else if 4 ≤ rating then "15-30 min".data
  else "5-20 min".data

/-- `enhanceRestaurantData` (server.js 1019-1032).  The mapped records
never carry a `categories` field, so the cuisine fallback chain reduces to
`restaurant.cuisine || 'Restaurant'`. -/
def enhanceRestaurantData (r : Restaurant) : Restaurant :=
  let cuisine := if r.cuisine = [] then "Restaurant".data else r.cuisine
  { r with
    cuisineType := classifyEnhancedCuisineType r.name cuisine,
    priceCategory := categorizePriceLevel (jsOrS r.priceLevel "$".data),
    estimatedWaitTime := estimateWaitTime r,
    specialFeatures := identifyEnhancedSpecialFeatures r,
    crossPlatformVerified := r.crossPlatformVerified,
    platformConsistency := some (jsOrQ r.platformConsistency 1) }

/-- The key under which `intelligentMergeRestaurants` stores an entity:
normalised name concatenated with normalised address (server.js 856). -/
def entityKey (name address : List Char) : List Char :=
  normalizeRestaurantName name ++ normalizeAddress address

/-- `Map.prototype.set` on an insertion-ordered association list: an
existing key is updated in place, a new key is appended. -/
def mapSet (m : List (List Char × Restaurant)) (k : List Char)
    (v : Restaurant) : List (List Char × Restaurant) :=
  if m.any (fun p => p.1 = k) then
    m.map (fun p => if p.1 = k then (k, v) else p)
  else m ++ [(k, v)]

/-- The Google seeding pass of `intelligentMergeRestaurants`
(server.js 854-857). -/
def stepA (m : List (List Char × Restaurant)) (g : GoogleListing) :
    List (List Char × Restaurant) :=
  mapSet m (entityKey g.name g.address) (enhanceRestaurantData (gPrep g))

/-- The record projection compared by the match loop (server.js 869-872). -/
def matchViewOf (r : Restaurant) : MatchView :=
  ⟨r.name, r.address, r.location⟩

/-- The Yelp-side projection (server.js 872). -/
def yelpMatchView (y : YelpListing) : MatchView :=
  ⟨y.name, y.address, y.location⟩

/-- The candidate scan of the Yelp merge loop (server.js 860-878): walk the
map in insertion order, skip entities that already carry a `yelpId`, and
keep the first key whose `calculateMatchScore` strictly exceeds the running
best, which starts at the fixed minimum `0.60`. -/
def findBestAux (em : ExternalMath) (y : YelpListing) :
    List (List Char × Restaurant) → Option (List Char) × ℚ →
      Option (List Char) × ℚ
  | [], acc => acc
  | (k, g) :: rest, (best, hi) =>
      if g.yelpId ≠ none then findBestAux em y rest (best, hi)
      else
        let s := calculateMatchScore em (matchViewOf g) (yelpMatchView y)
        if hi < s then findBestAux em y rest (some k, s)
        else findBestAux em y rest (best, hi)

/-- The chosen match key (and its score) for one Yelp record, starting from
the source's minimum score `highestScore = 0.60` (server.js 861). -/
def findBestKey (em : ExternalMath) (m : List (List Char × Restaurant))
    (y : YelpListing) : Option (List Char) × ℚ :=
  findBestAux em y m (none, 3/5)

/-- The mutation applied to a matched entity (server.js 881-895). -/
def attachYelp (g : Restaurant) (y : YelpListing) : Restaurant :=
  let g1 :=
    { g with
      yelpId := some y.id, yelpRating := y.rating,
      yelpReviewCount := some y.reviewCount, yelpImageUrl := y.imageUrl,
      source := g.source ++ " + Yelp".data, crossPlatformVerified := true,
      platformConsistency := some (calculatePlatformConsistency
        g.rating g.totalRatings y.rating (some y.reviewCount)) }
  let g2 :=
    if ¬ strTruthy g1.priceLevel ∧ y.priceLevel ≠ [] then
      { g1 with priceLevel := some y.priceLevel }
    else g1
  if g2.cuisine = "Restaurant".data ∧ y.cuisine ≠ "Restaurant".data then
    { g2 with cuisine := y.cuisine }
  else g2

/-- One iteration of the Yelp merge loop (server.js 859-904): attach the
record to the best-scoring unmatched entity if one exceeds the minimum, and
otherwise add it as a standalone entity unless its key is already taken. -/
def stepB (em : ExternalMath) (m : List (List Char × Restaurant))
    (y : YelpListing) : List (List Char × Restaurant) :=
  match (findBestKey em m y).1 with
  | some k => m.map (fun p => if p.1 = k then (k, attachYelp p.2 y) else p)
  | none =>
      let key := entityKey y.name y.address
      if m.any (fun p => p.1 = key) then m
      else m ++ [(key, enhanceRestaurantData (yPrep y))]

/-- `intelligentMergeRestaurants` (server.js 851-906). -/
def intelligentMergeRestaurants (em : ExternalMath)
    (googleRestaurants : List GoogleListing)
    (yelpRestaurants : List YelpListing) : List Restaurant :=
  (yelpRestaurants.foldl (stepB em)
    (googleRestaurants.foldl stepA [])).map (fun p => p.2)

/-- The filter object the search handler passes to `applyEnhancedFilters`
(server.js 634-638); the fields are the raw query-parameter strings. -/
structure Filters where
  priceRange : Option (List Char) := none
  minRating : Option (List Char) := none
  cuisine : Option (List Char) := none

/-- The per-restaurant predicate of `applyEnhancedFilters`
(server.js 1084-1106). -/
def passesEnhancedFilters (f : Filters) (r : Restaurant) : Bool :=
  let pricePass : Bool :=
    if strTruthy f.priceRange then
      let acceptedPrices := splitOnChar ',' (jsOrS f.priceRange [])
      match r.priceLevel with
      | none => false
      | some pl => pl ≠ [] && acceptedPrices.contains pl
    else true
  let minRatingPass : Bool :=
    if strTruthy f.minRating then
      match r.rating with
      | none => false
      | some q =>
          decide (q ≠ 0) &&
            (match parseFloatQ (jsOrS f.minRating []) with
             | none => true
             | some m => decide (¬ q < m))
    else true
  let cuisinePass : Bool :=
    if strTruthy f.cuisine then
      let cl := (jsOrS f.cuisine []).map Char.toLower
      listHasSub (r.cuisine.map Char.toLower) cl ||
        listHasSub (r.name.map Char.toLower) cl ||
        listHasSub (r.cuisineType.map Char.toLower) cl
    else true
  let notClosed : Bool := r.permanentlyClosedFactor ≠ some 0
  let statusPass : Bool :=
    match r.businessStatus with
    | none => true
    | some s => s = [] || s = "OPERATIONAL".data
  pricePass && minRatingPass && cuisinePass && notClosed && statusPass

/-- `applyEnhancedFilters` (server.js 1084-1106). -/
def applyEnhancedFilters (restaurants : List Restaurant) (f : Filters) :
    List Restaurant :=
  restaurants.filter (passesEnhancedFilters f)

/-- The query parameters of `/api/search-restaurants` (server.js 600-609),
as raw strings; `location` and `sortBy` carry the handler's defaults. -/
structure SearchParams where
  query : List Char := []
  location : List Char := "Boston,MA".data
  priceRange : Option (List Char) := none
  minRating : Option (List Char) := none
  cuisine : Option (List Char) := none
  sortBy : List Char := "smart".data
  userLat : Option (List Char) := none
  userLng : Option (List Char) := none

/-- The filter object the handler builds from its parameters
(server.js 634-638). -/
def filtersOfParams (p : SearchParams) : Filters :=
  ⟨p.priceRange, p.minRating, p.cuisine⟩

/-- The cache key built by the search handler (server.js 613):
the template literal
`search-QUERY-LOCATION-PRICE-MINRATING-SORTBY-USERLAT-USERLNG`
with `all`/`na` substituted for falsy parameters. -/
def buildSearchCacheKey (p : SearchParams) : List Char :=
  "search-".data ++ p.query ++ "-".data ++ p.location ++ "-".data ++
    jsOrS p.priceRange "all".data ++ "-".data ++
    jsOrS p.minRating "all".data ++ "-".data ++ p.sortBy ++ "-".data ++
    jsOrS p.userLat "na".data ++ "-".data ++ jsOrS p.userLng "na".data

/-- The seven-factor score vector (`scores` in server.js 1110-1118). -/
structure ScoreVec where
  rating : ℚ
  reviewCount : ℚ
  recency : ℚ
  consistency : ℚ
  priceValue : ℚ
  distance : ℚ
  uniqueness : ℚ
deriving DecidableEq

/-- `SCORING_WEIGHTS` (server.js 39-47). -/
def SCORING_WEIGHTS : ScoreVec :=
  ⟨25/100, 20/100, 15/100, 15/100, 10/100, 10/100, 5/100⟩

/-- The composite score of `calculateIntelligentScores` (server.js
1120-1126): the weight-table dot product, rounded to 3 decimal places. -/
def intelligentScoreOf (s : ScoreVec) : ℚ :=
  toFixed3 (s.rating * SCORING_WEIGHTS.rating +
    s.reviewCount * SCORING_WEIGHTS.reviewCount +
    s.recency * SCORING_WEIGHTS.recency +
    s.consistency * SCORING_WEIGHTS.consistency +
    s.priceValue * SCORING_WEIGHTS.priceValue +
    s.distance * SCORING_WEIGHTS.distance +
    s.uniqueness * SCORING_WEIGHTS.uniqueness)

/-- `calculateEnhancedRatingScore` (server.js 1132-1140). -/
def calculateEnhancedRatingScore (r : Restaurant) : ℚ :=
  if ¬ numTruthy r.rating then 1/2
  else
    let base := (jsOrQ r.rating 0 - 1) / 4
    let s1 := if r.crossPlatformVerified then min 1 (base * (11/10)) else base
    let s2 := if r.specialFeatures.contains "Chain Restaurant".data then
        s1 * (9/10) else s1
    max 0 (min 1 s2)

/-- `calculateEnhancedVolumeScore` (server.js 1142-1148). -/
def calculateEnhancedVolumeScore (em : ExternalMath) (r : Restaurant) : ℚ :=
  let totalReviews := jsOrN r.totalRatings 0 + jsOrN r.yelpReviewCount 0
  if totalReviews = 0 then 1/10
  else min 1 (em.log10 ((totalReviews : ℚ) + 1) / 3)

/-- `calculateEnhancedRecencyScore` (server.js 1150-1157). -/
def calculateEnhancedRecencyScore (r : Restaurant) : ℚ :=
  let s : ℚ :=
    if r.businessStatus = some "OPERATIONAL".data then 6/10 + 2/10 else 6/10
  min 1 s

/-- `calculateEnhancedPriceValueScore` (server.js 1159-1176). -/
def calculateEnhancedPriceValueScore (r : Restaurant) : ℚ :=
  let priceLevelNum : ℕ :=
    match r.priceLevel with
    | some p => if p = [] then 2 else p.length
    | none => 2
  let rating := jsOrQ r.rating 3
  if priceLevelNum = 0 then 1/2
  else
    let vq := rating / (priceLevelNum : ℚ)
    let score := (vq - 1/4) / (19/4)
    let rc := jsOrN r.totalRatings 0 + jsOrN r.yelpReviewCount 0
    let score2 := if rc < 10 then score * (8/10) else score
    max 0 (min 1 score2)

/-- `calculateDistanceScore` (server.js 1178-1192). -/
def calculateDistanceScore (em : ExternalMath) (r : Restaurant)
    (userLat userLng : Option ℚ) : ℚ :=
  match userLat, userLng, r.location with
  | some la, some ln, some (rla, rln) =>
      let d := em.dist la ln rla rln
      if d ≤ 1 then 1
      else if d ≤ 3 then 8/10
      else if d ≤ 5 then 6/10
      else if d ≤ 10 then 3/10
      else 1/10
  | _, _, _ => 3/10

/-- `calculateEnhancedUniquenessScore` (server.js 1194-1211). -/
def calculateEnhancedUniquenessScore (r : Restaurant) (query : List Char) :
    ℚ :=
  let f := r.specialFeatures
  let s0 : ℚ := 3/10
  let s1 := if f.contains "Hidden Gem".data then s0 + 3/10 else s0
  let s2 := if f.contains "Chef-Driven / Fine Dining".data then s1 + 2/10
    else s1
  let s3 := if f.contains "Craft Cocktails".data ||
      f.contains "Extensive Wine List".data then s2 + 15/100 else s2
  let s4 := if f.contains "Authentic Cuisine".data ||
      listHasSub r.cuisineType "Regional".data then s3 + 1/10 else s3
  let s5 := if f.contains "Chain Restaurant".data then s4 - 3/10 else s4
  let s6 :=
    if query ≠ [] then
      let ql := query.map Char.toLower
      let t1 := if listHasSub (r.name.map Char.toLower) ql then s5 + 1/10
        else s5
      if listHasSub (r.cuisine.map Char.toLower) ql ||
          listHasSub (r.cuisineType.map Char.toLower) ql then t1 + 5/100
      else t1
    else s5
  max 0 (min 1 s6)

/-- The context object passed to `calculateIntelligentScores`
(server.js 640-645), with the coordinates already parsed. -/
structure ScoringContext where
  userLat : Option ℚ := none
  userLng : Option ℚ := none
  query : List Char := []
  sortBy : List Char := []

/-- A restaurant annotated by `calculateIntelligentScores`. -/
structure ScoredRestaurant where
  r : Restaurant
  intelligentScore : ℚ
  scoreBreakdown : ScoreVec

/-- `calculateIntelligentScores` (server.js 1108-1130). -/
def calculateIntelligentScores (em : ExternalMath)
    (restaurants : List Restaurant) (ctx : ScoringContext) :
    List ScoredRestaurant :=
  restaurants.map (fun r =>
    let scores : ScoreVec :=
      { rating := calculateEnhancedRatingScore r,
        reviewCount := calculateEnhancedVolumeScore em r,
        recency := calculateEnhancedRecencyScore r,
        consistency := jsOrQ r.platformConsistency (8/10),
        priceValue := calculateEnhancedPriceValueScore r,
        distance := calculateDistanceScore em r ctx.userLat ctx.userLng,
        uniqueness := calculateEnhancedUniquenessScore r ctx.query }
    ⟨r, intelligentScoreOf scores, scores⟩)

/-- The descending-score comparator of server.js 647, as the total
preorder under which the stable sort is performed. -/
def scoreDescLe (a b : ScoredRestaurant) : Prop :=
  b.intelligentScore ≤ a.intelligentScore

instance : DecidableRel scoreDescLe :=
  fun _ _ => inferInstanceAs (Decidable (_ ≤ _))

/-- A scored restaurant with its recommendation reasons. -/
structure ReasonedRestaurant where
  sr : ScoredRestaurant
  recommendationReasons : List (List Char)

/-- The reason selection of `addEnhancedRecommendationReasons`
(server.js 1213-1243). -/
def reasonsFor (sr : ScoredRestaurant) : List (List Char) :=
  let scores := sr.scoreBreakdown
  let features := sr.r.specialFeatures
  let l1 := if (85/100 : ℚ) < scores.rating then
      addIfNew [] "Exceptional ratings".data
    else if (7/10 : ℚ) < scores.rating then addIfNew [] "Excellent ratings".data
    else []
  let l2 := if (8/10 : ℚ) < scores.reviewCount then
      addIfNew l1 "Very popular (many reviews)".data
    else if (6/10 : ℚ) < scores.reviewCount then addIfNew l1 "Well-reviewed".data
    else l1
  let l3 := if sr.r.crossPlatformVerified then
      addIfNew l2 "Verified on multiple platforms".data else l2
  let l4 := if (8/10 : ℚ) < scores.priceValue then
      addIfNew l3 "Great value for money".data
    else if (65/100 : ℚ) < scores.priceValue then addIfNew l3 "Good value".data
    else l3
  let l5 := if (9/10 : ℚ) < scores.distance then addIfNew l4 "Very close by".data
    else if (7/10 : ℚ) < scores.distance then addIfNew l4 "Nearby".data
    else l4
  let l6 := if features.contains "Hidden Gem".data then
      addIfNew l5 "Local favorite (Hidden Gem)".data else l5
  let l7 := if features.contains "Chef-Driven / Fine Dining".data then
      addIfNew l6 "Unique culinary experience".data else l6
  let l8 := if features.contains "Craft Cocktails".data then
      addIfNew l7 "Known for craft cocktails".data else l7
  let l9 := if features.contains "Outdoor Seating".data && decide (l8.length < 3)
    then addIfNew l8 "Offers outdoor seating".data else l8
  let l10 := if listHasSub sr.r.cuisineType "Authentic".data &&
      decide (l9.length < 3) then addIfNew l9 "Authentic Cuisine".data else l9
  let l11 := if listHasSub sr.r.cuisineType "Regional".data &&
      decide (l10.length < 3) then addIfNew l10 "Regional Specialty".data
    else l10
  l11.take 3

/-- `addEnhancedRecommendationReasons` (server.js 1213-1243). -/
def addEnhancedRecommendationReasons (restaurants : List ScoredRestaurant) :
    List ReasonedRestaurant :=
  restaurants.map (fun sr => ⟨sr, reasonsFor sr⟩)

/-- The result object of the search handler (server.js 659-668), restricted
to the engine-computed fields (the `searchInsights` aggregation and the
external AI summary are presentation data outside the verified core). -/
structure SearchResult where
  restaurants : List ReasonedRestaurant
  totalFound : ℕ
  filteredCount : ℕ
  sourceCounts : ℕ × ℕ

/-- The computational core of `/api/search-restaurants`
(server.js 632-668): merge, filter, score, sort descending, annotate with
reasons, and return the top 12 together with the merged and filtered
counts. -/
def searchRestaurants (em : ExternalMath) (googleRestaurants : List GoogleListing)
    (yelpRestaurants : List YelpListing) (p : SearchParams) : SearchResult :=
  let mergedRestaurants :=
    intelligentMergeRestaurants em googleRestaurants yelpRestaurants
  let filteredRestaurants := applyEnhancedFilters mergedRestaurants
    (filtersOfParams p)
  let ctx : ScoringContext :=
    { userLat := match p.userLat with
        | some s => if s ≠ [] then parseFloatQ s else none
        | none => none,
      userLng := match p.userLng with
        | some s => if s ≠ [] then parseFloatQ s else none
        | none => none,
      query := p.query, sortBy := p.sortBy }
  let scoredRestaurants := calculateIntelligentScores em filteredRestaurants ctx
  let sorted := sortByLe scoreDescLe scoredRestaurants
  let restaurantsWithReasons := addEnhancedRecommendationReasons sorted
  { restaurants := restaurantsWithReasons.take 12,
    totalFound := mergedRestaurants.length,
    filteredCount := filteredRestaurants.length,
    sourceCounts := (googleRestaurants.length, yelpRestaurants.length) }

/-- A review record as fetched from either platform (server.js 421-428,
524-531); `weight` models the optional `weight` field read defensively at
server.js 1366/1376 (it is never written by the current source). -/
structure Review where
  rating : Option ℚ := none
  text : List Char := []
  author : List Char := []
  time : Option ℚ := none
  authenticity_score : Option ℚ := none
  user_review_count : Option ℕ := none
  platformSource : Option (List Char) := none
  weight : Option ℚ := none
deriving DecidableEq

/-- `FAKE_REVIEW_PATTERNS.suspiciousPatterns` (server.js 51-55): each
pattern is an alternation of literal phrases. -/
def suspiciousPatterns : List (List (List Char)) :=
  [["amazing".data, "excellent".data, "perfect".data, "fantastic".data],
   ["worst".data, "terrible".data, "awful".data, "horrible".data],
   ["highly recommend".data, "must try".data, "definitely worth".data]]

/-- `FAKE_REVIEW_PATTERNS.spamIndicators` (server.js 56-59). -/
def spamIndicators : List (List (List Char)) :=
  [["same day".data, "today".data, "yesterday".data],
   ["first time".data, "never been".data, "will come back".data]]

/-- `FAKE_REVIEW_PATTERNS.genericPhrases` (server.js 60-63). -/
def genericPhrases : List (List (List Char)) :=
  [["good food".data, "nice place".data, "great service".data],
   ["bad experience".data, "poor service".data, "not recommended".data]]

/-- `pattern.test(text)` for an alternation of literal phrases. -/
def patternTest (pat : List (List Char)) (text : List Char) : Bool :=
  pat.any (fun kw => listHasSub text kw)

/-- The number of patterns of a group that match the text. -/
def countPatternMatches (pats : List (List (List Char))) (text : List Char) :
    ℕ :=
  (pats.filter (fun p => patternTest p text)).length

/-- `calculateAuthenticityScore` (server.js 780-815).  Note that the source
lower-cases the text on its first line, so the later `[A-Z]`
capitalisation check (server.js 811) operates on an all-lower-case string;
the embedding reproduces this faithfully. -/
def calculateAuthenticityScore (review : Review) : ℚ :=
  let text := review.text.map Char.toLower
  let suspiciousMatches := countPatternMatches suspiciousPatterns text
  let s1 : ℚ :=
    if 1 < suspiciousMatches then 1 - (3/10) * ((suspiciousMatches : ℚ) - 1)
    else 1
  let s2 := s1 - (1/5) * (countPatternMatches spamIndicators text : ℚ)
  let genericMatches := countPatternMatches genericPhrases text
  let s3 := if 0 < genericMatches then s2 - (15/100) * (genericMatches : ℚ)
    else s2
  let s4 := if text.length < 25 then s3 - 3/10
    else if text.length < 50 then s3 - 1/10
    else s3
  let s5 := if 500 < text.length then s4 + 5/100 else s4
  let s6 :=
    match review.user_review_count with
    | none => s5
    | some c =>
        let t1 := if c < 3 then s5 - 1/5 else if c < 10 then s5 - 1/10 else s5
        if 50 < c then t1 + 1/10 else t1
  let s7 :=
    if 0 < text.length ∧
        (1:ℚ)/2 < ((text.filter Char.isUpper).length : ℚ) / (text.length : ℚ)
    then s6 - 1/5 else s6
  let s8 := if 3 < (text.filter (fun c => c = '!')).length then s7 - 1/10
    else s7
  max (1/10) (min 1 (toFixed2 s8))

/-- A theme entry of `ENHANCED_THEME_KEYWORDS` (server.js 81-102). -/
structure ThemeKeywords where
  positive : List (List Char)
  negative : List (List Char)
  neutral : List (List Char)

/-- `ENHANCED_THEME_KEYWORDS.food` (server.js 82-86). -/
def foodKeywords : ThemeKeywords :=
  ⟨["delicious".data, "flavorful".data, "fresh".data, "authentic".data,
    "perfect".data, "amazing".data, "excellent".data, "tasty".data,
    "incredible".data],
   ["bland".data, "stale".data, "overcooked".data, "undercooked".data,
    "tasteless".data, "terrible".data, "awful".data, "disgusting".data],
   ["food".data, "dish".data, "meal".data, "cuisine".data, "menu".data,
    "plate".data, "order".data, "ingredients".data]⟩

/-- `ENHANCED_THEME_KEYWORDS.service` (server.js 87-91). -/
def serviceKeywords : ThemeKeywords :=
  ⟨["friendly".data, "attentive".data, "helpful".data, "professional".data,
    "quick".data, "excellent".data, "outstanding".data],
   ["rude".data, "slow".data, "inattentive".data, "unprofessional".data,
    "terrible".data, "awful".data, "horrible".data],
   ["service".data, "staff".data, "waiter".data, "server".data,
    "waitress".data, "host".data, "manager".data]⟩

/-- `ENHANCED_THEME_KEYWORDS.ambiance` (server.js 92-96). -/
def ambianceKeywords : ThemeKeywords :=
  ⟨["cozy".data, "romantic".data, "beautiful".data, "charming".data,
    "intimate".data, "lovely".data, "perfect".data],
   ["loud".data, "crowded".data, "dirty".data, "uncomfortable".data,
    "noisy".data, "cramped".data],
   ["atmosphere".data, "ambiance".data, "decor".data, "music".data,
    "lighting".data, "setting".data, "environment".data]⟩

/-- `ENHANCED_THEME_KEYWORDS.value` (server.js 97-101). -/
def valueKeywords : ThemeKeywords :=
  ⟨["affordable".data, "reasonable".data, "worth".data, "great-deal".data,
    "bargain".data, "cheap".data, "budget-friendly".data],
   ["expensive".data, "overpriced".data, "costly".data, "not-worth".data,
    "too-much".data, "rip-off".data],
   ["price".data, "cost".data, "value".data, "money".data, "bill".data,
    "check".data, "payment".data]⟩

/-- The per-theme output of `analyzeEnhancedThemes` (server.js 1507-1524). -/
structure ThemeOut where
  averageRating : ℚ
  sentimentAdjustedScore : ℚ
  mentions : ℕ
  keywords : List (List Char)
  mentionPercentage : ℚ
deriving DecidableEq

/-- The per-theme accumulator of `analyzeEnhancedThemes`
(server.js 1472-1477). -/
structure ThemeAcc where
  scoreSum : ℚ := 0
  mentions : ℕ := 0
  keywords : List (List Char) := []
  sentimentRatings : List ℚ := []

/-- One review processed into one theme accumulator (server.js 1479-1505). -/
def themeStepReview (tk : ThemeKeywords) (acc : ThemeAcc) (review : Review) :
    ThemeAcc :=
  match review.rating with
  | none => acc
  | some rating =>
      let text := review.text.map Char.toLower
      let matched := (tk.positive ++ tk.negative ++ tk.neutral).filter
        (fun k => listHasSub text k)
      if matched ≠ [] then
        let sent1 := if tk.negative.any (fun k => listHasSub text k) then
            min rating (5/2) else rating
        let sent2 := if tk.positive.any (fun k => listHasSub text k) then
            max sent1 (7/2) else sent1
        { scoreSum := acc.scoreSum + rating, mentions := acc.mentions + 1,
          keywords := matched.foldl addIfNew acc.keywords,
          sentimentRatings := acc.sentimentRatings ++ [sent2] }
      else acc

/-- The finalisation step of `analyzeEnhancedThemes` (server.js 1507-1524). -/
def finalizeTheme (reviews : List Review) (acc : ThemeAcc) : ThemeOut :=
  if 0 < acc.mentions then
    let averageRating := acc.scoreSum / (acc.mentions : ℚ)
    let averageSentiment :=
      if acc.sentimentRatings ≠ [] then
        (acc.sentimentRatings.foldl (fun a b => a + b) 0) /
          (acc.sentimentRatings.length : ℚ)
      else averageRating
    { averageRating := toFixed1 averageRating,
      sentimentAdjustedScore := toFixed1 averageSentiment,
      mentions := acc.mentions,
      keywords := acc.keywords.take 5,
      mentionPercentage :=
        toFixed1 (((acc.mentions : ℚ) / (reviews.length : ℚ)) * 100) }
  else ⟨0, 0, 0, [], 0⟩

/-- The four fixed themes of the analysis output. -/
structure Themes where
  food : ThemeOut
  service : ThemeOut
  ambiance : ThemeOut
  value : ThemeOut
deriving DecidableEq

/-- `analyzeEnhancedThemes` (server.js 1471-1526). -/
def analyzeEnhancedThemes (reviews : List Review) : Themes :=
  let run := fun tk =>
    finalizeTheme reviews (reviews.foldl (themeStepReview tk) {})
  ⟨run foodKeywords, run serviceKeywords, run ambianceKeywords,
   run valueKeywords⟩

/-- The sentiment distribution object (server.js 1528-1549). -/
structure SentimentOut where
  positive : ℤ
  neutral : ℤ
  negative : ℤ
  breakdown : ℕ × ℕ × ℕ
deriving DecidableEq

/-- `analyzeEnhancedSentiment` (server.js 1528-1549).  Reviews without a
rating are skipped by the classification but still counted in the
percentage denominator, exactly as in the source. -/
def analyzeEnhancedSentiment (reviews : List Review) : SentimentOut :=
  if reviews.length = 0 then ⟨0, 100, 0, (0, 0, 0)⟩
  else
    let pos := reviews.countP (fun r =>
      match r.rating with | some q => decide (4 ≤ q) | none => false)
    let neu := reviews.countP (fun r =>
      match r.rating with | some q => decide (3 ≤ q ∧ q < 4) | none => false)
    let neg := reviews.countP (fun r =>
      match r.rating with | some q => decide (q < 3) | none => false)
    let total := reviews.length
    ⟨jsMathRound ((pos : ℚ) / (total : ℚ) * 100),
     jsMathRound ((neu : ℚ) / (total : ℚ) * 100),
     jsMathRound ((neg : ℚ) / (total : ℚ) * 100),
     (pos, neu, neg)⟩

/-- `classifyEnhancedReviewSentiment` (server.js 1551-1562). -/
def classifyEnhancedReviewSentiment (text : List Char) (rating : Option ℚ) :
    List Char :=
  match rating with
  | none =>
      if text = [] then "neutral".data
      else
        let tl := text.map Char.toLower
        if foodKeywords.positive.any (fun k => listHasSub tl k) then
          "positive".data
        else if foodKeywords.negative.any (fun k => listHasSub tl k) then
          "negative".data
        else "neutral".data
  | some q =>
      if 4 ≤ q then "positive".data
      else if 3 ≤ q then "neutral".data
      else "negative".data

/-- JS truthiness of the `time` field (`r.time && ...`). -/
def reviewTimeTruthy (r : Review) : Bool :=
  match r.time with
  | some t => t ≠ 0
  | none => false

/-- The usability filter of `calculateAdvancedTrend` (server.js 1568):
truthy timestamp and non-null rating. -/
def usableForTrend (r : Review) : Bool :=
  reviewTimeTruthy r && r.rating.isSome

/-- The ascending-time comparator of server.js 1569 (timestamps are
modelled as numbers; the source converts ISO strings to epoch numbers
before comparing). -/
def timeLe (a b : Review) : Prop :=
  a.time.getD 0 ≤ b.time.getD 0

instance : DecidableRel timeLe :=
  fun _ _ => inferInstanceAs (Decidable (_ ≤ _))

/-- The filtered, time-sorted review list of `calculateAdvancedTrend`
(server.js 1567-1569). -/
def sortedByTime (reviews : List Review) : List Review :=
  sortByLe timeLe (reviews.filter usableForTrend)

/-- The rating of a usable review. -/
def ratingD (r : Review) : ℚ := r.rating.getD 0

/-- Mean rating of a review segment (server.js 1579-1580). -/
def avgRating (l : List Review) : ℚ :=
  (l.foldl (fun a r => a + ratingD r) 0) / (l.length : ℚ)

/-- `calculateAdvancedTrend` (server.js 1564-1586).  `Math.floor(L/3)` and
`Math.ceil(L*2/3)` are the natural-division expressions `L / 3` and
`(2*L + 2) / 3`. -/
def calculateAdvancedTrend (reviews : List Review) : List Char :=
  if reviews.length < 10 then "stable".data
  else
    let s := sortedByTime reviews
    if s.length < 10 then "stable".data
    else
      let L := s.length
      let firstThird := s.take (L / 3)
      let lastThird := s.drop ((2 * L + 2) / 3)
      if firstThird = [] ∨ lastThird = [] then "stable".data
      else
        let diff := avgRating lastThird - avgRating firstThird
        if 1/4 < diff then "improving".data
        else if diff < -(1/4) then "declining".data
        else "stable".data

/-- The `{google: [...], yelp: [...]}` review map passed to
`createBalancedTopReviews` (server.js 1341, 1375). -/
structure PlatformReviews where
  google : List Review := []
  yelp : List Review := []

/-- The selection rank of `createBalancedTopReviews` (server.js 1412):
`2·rating + authenticityScore + textLength/500`. -/
def reviewSortScore (r : Review) : ℚ :=
  (jsOrQ r.rating 0) * 2 + jsOrQ r.authenticity_score (1/2) +
    (r.text.length : ℚ) / 500

/-- A review annotated with its resolved platform and rank
(server.js 1406-1415). -/
structure ScoredReview where
  rev : Review
  platform : List Char
  sortScore : ℚ
deriving DecidableEq

/-- `review.platformSource || platformName` (server.js 1410). -/
def toScored (platformName : List Char) (r : Review) : ScoredReview :=
  ⟨r, jsOrS r.platformSource platformName, reviewSortScore r⟩

/-- An entry of the balanced top-review list (server.js 1427-1434). -/
structure BalancedReview where
  rating : Option ℚ
  text : List Char
  author : List Char
  platform : List Char
  sentiment : List Char
  authenticity_score : Option ℚ
deriving DecidableEq

/-- `text.substring(0,250) + (text.length > 250 ? '...' : '')`
(server.js 1429). -/
def truncate250 (text : List Char) : List Char :=
  text.take 250 ++ (if 250 < text.length then "...".data else [])

/-- The output shape of a selected top review (server.js 1427-1434). -/
def toBalanced (sr : ScoredReview) : BalancedReview :=
  ⟨sr.rev.rating, truncate250 sr.rev.text, sr.rev.author, sr.platform,
   classifyEnhancedReviewSentiment sr.rev.text sr.rev.rating,
   sr.rev.authenticity_score⟩

/-- The descending-rank comparator of server.js 1420. -/
def sortScoreDescLe (a b : ScoredReview) : Prop :=
  b.sortScore ≤ a.sortScore

instance : DecidableRel sortScoreDescLe :=
  fun _ _ => inferInstanceAs (Decidable (_ ≤ _))

/-- The first pass of `createBalancedTopReviews` (server.js 1422-1437):
walk the ranked list and take the first review of each not-yet-represented
platform, while fewer than 5 reviews are selected. -/
def pickPlatformReps :
    List ScoredReview → List BalancedReview × List (List Char) →
      List BalancedReview × List (List Char)
  | [], acc => acc
  | sr :: rest, (sel, rep) =>
      if sel.length < 5 ∧ ¬ sr.platform ∈ rep then
        pickPlatformReps rest (sel ++ [toBalanced sr], rep ++ [sr.platform])
      else pickPlatformReps rest (sel, rep)

/-- The near-duplicate check of the fill pass (server.js 1442). -/
def alreadyAdded (sel : List BalancedReview) (sr : ScoredReview) : Bool :=
  sel.any (fun br =>
    startsWithL br.text (sr.rev.text.take 250) && br.author = sr.rev.author)

/-- The second pass of `createBalancedTopReviews` (server.js 1440-1453):
fill the remaining slots with the highest-ranked reviews, skipping
near-duplicates, stopping at 5. -/
def fillRemaining : List ScoredReview → List BalancedReview →
    List BalancedReview
  | [], sel => sel
  | sr :: rest, sel =>
      if 5 ≤ sel.length then sel
      else if alreadyAdded sel sr then fillRemaining rest sel
      else fillRemaining rest (sel ++ [toBalanced sr])

/-- `createBalancedTopReviews` (server.js 1401-1456); `MAX_TOP_REVIEWS`
is 5. -/
def createBalancedTopReviews (pm : PlatformReviews) : List BalancedReview :=
  let allAvailable := pm.google.map (toScored "google".data) ++
    pm.yelp.map (toScored "yelp".data)
  if allAvailable = [] then []
  else
    let sorted := sortByLe sortScoreDescLe allAvailable
    fillRemaining sorted (pickPlatformReps sorted ([], [])).1

/-- The two review sources of the analysis endpoint. -/
inductive Platform
  | google
  | yelp
deriving DecidableEq

/-- The per-source payload handed to the analysis
(`result.value.data` of server.js 703-705). -/
structure ReviewsPayload where
  reviews : List Review := []
  restaurant_name : Option (List Char) := none

/-- The accumulator of the gathering loop of
`performAdvancedAnalysisWithBalancing` (server.js 1341-1359). -/
structure GatherState where
  google : List Review := []
  yelp : List Review := []
  platformCount : ℕ := 0
  nameToUse : Option (List Char) := none

/-- One iteration of the gathering loop (server.js 1347-1359): adopt the
first truthy restaurant name, count a platform the first time it
contributes a non-empty review list, and tag every review with its
platform. -/
def gatherStep (st : GatherState) (pd : Platform × ReviewsPayload) :
    GatherState :=
  let st1 := if strTruthy pd.2.restaurant_name ∧ ¬ strTruthy st.nameToUse
    then { st with nameToUse := pd.2.restaurant_name } else st
  if pd.2.reviews = [] then st1
  else
    match pd.1 with
    | .google =>
        let st2 := if st1.google = [] then
            { st1 with platformCount := st1.platformCount + 1 } else st1
        let tagged := pd.2.reviews.map
          (fun r => { r with platformSource := some "google".data })
        { st2 with google := st2.google ++ tagged }
    | .yelp =>
        let st2 := if st1.yelp = [] then
            { st1 with platformCount := st1.platformCount + 1 } else st1
        let tagged := pd.2.reviews.map
          (fun r => { r with platformSource := some "yelp".data })
        { st2 with yelp := st2.yelp ++ tagged }

/-- The gathering loop, started from the caller-supplied restaurant name
(server.js 1345-1359). -/
def gatherPlatformReviews (input : List (Platform × ReviewsPayload))
    (restaurantName : Option (List Char)) : GatherState :=
  input.foldl gatherStep { nameToUse := restaurantName }

/-- `totalRatingsCount` (server.js 1363-1368): the number of combined
reviews with a non-null rating. -/
def ratedReviewCount (input : List (Platform × ReviewsPayload))
    (restaurantName : Option (List Char)) : ℕ :=
  let st := gatherPlatformReviews input restaurantName
  (st.google ++ st.yelp).countP (fun r => r.rating.isSome)

/-- `determineDataQuality` (server.js 1588-1600). -/
def determineDataQuality (platformCount totalReviewsCount : ℕ)
    (allReviewsList : List Review) : List Char :=
  let s1 : ℚ := if 2 ≤ platformCount then 35
    else if platformCount = 1 then 15 else 0
  let s2 := if 100 ≤ totalReviewsCount then s1 + 35
    else if 50 ≤ totalReviewsCount then s1 + 25
    else if 10 ≤ totalReviewsCount then s1 + 15
    else s1
  let avgAuth : ℚ :=
    if allReviewsList.length ≠ 0 then
      (allReviewsList.foldl
        (fun a r => a + jsOrQ r.authenticity_score (6/10)) 0) /
        (allReviewsList.length : ℚ)
    else 6/10
  let score := s2 + avgAuth * 30
  if 75 ≤ score then "high".data
  else if 50 ≤ score then "medium".data
  else if 25 ≤ score then "low".data
  else "very low".data

/-- The rule-based part of `generateEnhancedCompetitiveInsights`
(server.js 1602-1623); the human-readable message strings (number
formatting, empty-case placeholders) are presentation only and elided. -/
structure CompetitiveOut where
  strengths : List (List Char)
  areasForImprovement : List (List Char)
deriving DecidableEq

/-- `generateEnhancedCompetitiveInsights` (server.js 1602-1623). -/
def generateEnhancedCompetitiveInsights (themes : Themes) : CompetitiveOut :=
  let entries := [("food".data, themes.food), ("service".data, themes.service),
    ("ambiance".data, themes.ambiance), ("value".data, themes.value)]
  { strengths := (entries.filter
      (fun p => 4 ≤ p.2.averageRating ∧ 0 < p.2.mentions)).map
        (fun p => capitalizeFirst p.1),
    areasForImprovement := (entries.filter
      (fun p => p.2.averageRating < 3 ∧ 0 < p.2.mentions)).map
        (fun p => capitalizeFirst p.1) }

/-- The analysis result object (server.js 1385-1398); the fallback result
has no themes/competitive payload (`none` models its empty objects). -/
structure AnalysisResult where
  restaurant_name : Option (List Char)
  unifiedScore : ℚ
  totalReviews : ℕ
  confidence : ℤ
  sentimentAnalysis : SentimentOut
  themes : Option Themes
  recentTrend : List Char
  topReviews : List BalancedReview
  platformsUsed : ℕ
  dataQuality : List Char
  competitiveAnalysis : Option CompetitiveOut
  reviewBalance : ℕ × ℕ
  message : Option (List Char)

/-- `generateFallbackAnalysis` (server.js 1458-1469). -/
def generateFallbackAnalysis (restaurantName : List Char) : AnalysisResult :=
  { restaurant_name := some restaurantName,
    unifiedScore := 0, totalReviews := 0, confidence := 10,
    sentimentAnalysis := ⟨0, 100, 0, (0, 0, 0)⟩,
    themes := none, recentTrend := "unknown".data, topReviews := [],
    platformsUsed := 0, dataQuality := "very low".data,
    competitiveAnalysis := none, reviewBalance := (0, 0),
    message := some ("Limited review data available. " ++
      "Analysis is based on estimates or defaults.").data }

/-- `performAdvancedAnalysisWithBalancing` (server.js 1340-1399). -/
def performAdvancedAnalysisWithBalancing
    (input : List (Platform × ReviewsPayload))
    (restaurantName : Option (List Char)) : AnalysisResult :=
  let st := gatherPlatformReviews input restaurantName
  let all := st.google ++ st.yelp
  if ratedReviewCount input restaurantName = 0 then
    generateFallbackAnalysis (jsOrS st.nameToUse "This Restaurant".data)
  else
    let totalRatingsCount := ratedReviewCount input restaurantName
    let weightedRatingSum := all.foldl
      (fun a r => match r.rating with
        | some q => a + q * jsOrQ r.weight 1
        | none => a) 0
    let balancedTopReviews := createBalancedTopReviews ⟨st.google, st.yelp⟩
    let unifiedScore := weightedRatingSum /
      (all.foldl (fun a r => a + jsOrQ r.weight 1) 0)
    let themes := analyzeEnhancedThemes all
    let sentiment := analyzeEnhancedSentiment all
    let volumeScore : ℚ := min 1 ((totalRatingsCount : ℚ) / 50) * 50
    let diversityScore : ℚ := (st.platformCount : ℚ) * 25
    let confidence : ℤ := min 100 (jsMathRound (volumeScore + diversityScore))
    { restaurant_name := st.nameToUse,
      unifiedScore := toFixed1 unifiedScore,
      totalReviews := totalRatingsCount,
      confidence := confidence,
      sentimentAnalysis := sentiment,
      themes := some themes,
      recentTrend := calculateAdvancedTrend all,
      topReviews := balancedTopReviews,
      platformsUsed := st.platformCount,
      dataQuality := determineDataQuality st.platformCount totalRatingsCount all,
      competitiveAnalysis := some (generateEnhancedCompetitiveInsights themes),
      reviewBalance := (st.google.length, st.yelp.length),
      message := none }

/-- The trend behaviour as worded by the specification: with at least 10
usable (truthy-timestamp, rated) reviews, sort ascending by time and
compare the mean rating of the first third against the last third with a
±0.25 threshold; with fewer, "stable" regardless. -/
def trendSpec (reviews : List Review) : List Char :=
  let u := sortedByTime reviews
  if u.length < 10 then "stable".data
  else
    let diff := avgRating (u.drop ((2 * u.length + 2) / 3)) -
      avgRating (u.take (u.length / 3))
    if 1/4 < diff then "improving".data
    else if diff < -(1/4) then "declining".data
    else "stable".data

/-- Example Google listing (used by the merge claims). -/
def gAlpha : GoogleListing :=
  { id := "g1".data, name := "Zeta".data, address := "12 Alpha Way".data,
    rating := some 4, totalRatings := 25 }

/-- A second Google listing whose normalised name+address key differs from
`gAlpha`. -/
def gBeta : GoogleListing :=
  { id := "g2".data, name := "Omikron".data, address := "99 Beta Road".data,
    rating := some (35/10), totalRatings := 12 }

/-- Google listing for the threshold counterexample: name `zeta`, address
`abcde`. -/
def c3Google : GoogleListing :=
  { id := "g1".data, name := "zeta".data, address := "abcde".data }

/-- Yelp record whose composite match score against `c3Google` is exactly
`0.55·1 + 0.35·0.24 = 0.634`, strictly between the source's threshold
`0.60` and the claimed threshold `0.65`. -/
def c3Yelp : YelpListing :=
  { id := "y1".data, name := "zeta".data, address := "abxyz".data }

/-- Yelp record with the same name and address as `c3Google`
(match score `0.55 + 0.35 = 0.9`). -/
def c3YelpExact : YelpListing :=
  { id := "y2".data, name := "zeta".data, address := "abcde".data }

/-- Example google-side review list: two rating-5 reviews that individually
outrank every yelp-side review. -/
def c4GoogleReviews : List Review :=
  [{ rating := some 5, text := "great tacos overall".data,
     author := "A1".data },
   { rating := some 5, text := "superb spot overall".data,
     author := "A2".data }]

/-- Example yelp-side review list: a single rating-3 review. -/
def c4YelpReviews : List Review :=
  [{ rating := some 3, text := "fine".data, author := "B1".data }]

/-- The balanced-top-review example of the specification: both sources
contribute, and every source-A review outranks the source-B review. -/
def c4Map : PlatformReviews := ⟨c4GoogleReviews, c4YelpReviews⟩

/-- A review whose text is more than 50% upper-case characters. -/
def capsReview : Review :=
  { text := "THE COOKS PREPARE WONDERFUL TABLE SIDE GUACAMOLE HERE".data,
    rating := some 5 }

/-- The identical review with its text lower-cased. -/
def lowerReview : Review :=
  { text := "the cooks prepare wonderful table side guacamole here".data,
    rating := some 5 }

/-- A search request with a `mexican` cuisine filter. -/
def tacosParamsMexican : SearchParams :=
  { query := "tacos".data, cuisine := some "mexican".data }

/-- The same search request with a `thai` cuisine filter. -/
def tacosParamsThai : SearchParams :=
  { query := "tacos".data, cuisine := some "thai".data }

/-- A merged record that passes the `mexican` cuisine filter but not the
`thai` one. -/
def taqueriaRecord : Restaurant :=
  { name := "La Taqueria".data, cuisine := "Mexican".data,
    rating := some (45/10) }

/-! Helper lemmas about the embedded primitives. -/

theorem mem_insertSorted {α : Type} (le : α → α → Prop) [DecidableRel le]
    (x a : α) (l : List α) : a ∈ insertSorted le x l ↔ a = x ∨ a ∈ l := by
  induction l with
  | nil => simp [insertSorted]
  | cons y ys ih =>
      by_cases h : le x y
      · simp [insertSorted, h]
      · simp only [insertSorted, if_neg h, List.mem_cons, ih]
        tauto

theorem mem_sortByLe {α : Type} (le : α → α → Prop) [DecidableRel le]
    (a : α) (l : List α) : a ∈ sortByLe le l ↔ a ∈ l := by
  induction l with
  | nil => simp [sortByLe]
  | cons x xs ih => simp [sortByLe, mem_insertSorted, ih]

theorem length_insertSorted {α : Type} (le : α → α → Prop) [DecidableRel le]
    (x : α) (l : List α) :
    (insertSorted le x l).length = l.length + 1 := by
  induction l with
  | nil => simp [insertSorted]
  | cons y ys ih =>
      by_cases h : le x y
      · simp [insertSorted, h]
      · simp [insertSorted, h, ih]

theorem length_sortByLe {α : Type} (le : α → α → Prop) [DecidableRel le]
    (l : List α) : (sortByLe le l).length = l.length := by
  induction l with
  | nil => rfl
  | cons x xs ih => simp [sortByLe, length_insertSorted, ih]

theorem levFuel_self (s : List Char) :
    ∀ fuel, s.length ≤ fuel → levFuel fuel s s = 0 := by
  induction s with
  | nil => intro fuel _; cases fuel <;> rfl
  | cons x xs ih =>
      intro fuel hf
      match fuel with
      | 0 => simp at hf
      | f + 1 =>
          have : xs.length ≤ f := by simpa [Nat.succ_le_succ_iff] using hf
          simp [levFuel, ih f this]

theorem levenshteinDistance_self (s : List Char) :
    levenshteinDistance s s = 0 :=
  levFuel_self s _ (by omega)

theorem toFixed3_mem_unit {q : ℚ} (h0 : 0 ≤ q) (h1 : q ≤ 1) :
    0 ≤ toFixed3 q ∧ toFixed3 q ≤ 1 := by
  unfold toFixed3
  have hfl : (0 : ℤ) ≤ ⌊q * 1000 + 1/2⌋ := by
    rw [Int.le_floor]
    push_cast
    linarith
  have hfu : ⌊q * 1000 + 1/2⌋ ≤ 1000 := by
    have hle : (⌊q * 1000 + 1/2⌋ : ℚ) ≤ q * 1000 + 1/2 := Int.floor_le _
    have hlt : (⌊q * 1000 + 1/2⌋ : ℚ) < 1001 := by linarith
    have : ⌊q * 1000 + 1/2⌋ < 1001 := by exact_mod_cast hlt
    omega
  constructor
  · apply div_nonneg _ (by norm_num)
    exact_mod_cast hfl
  · rw [div_le_one (by norm_num)]
    exact_mod_cast hfu

/-! The claim theorems. -/

/-- C1: for every score vector whose seven factors each lie in [0,1], the
weight table of `SCORING_WEIGHTS` sums to 1.0 and the composite
`intelligentScore` — the weighted dot product rounded to 3 decimal
places — lies in [0,1]. -/
theorem claim1_intelligentScore_unit (s : ScoreVec)
    (h1 : 0 ≤ s.rating ∧ s.rating ≤ 1)
    (h2 : 0 ≤ s.reviewCount ∧ s.reviewCount ≤ 1)
    (h3 : 0 ≤ s.recency ∧ s.recency ≤ 1)
    (h4 : 0 ≤ s.consistency ∧ s.consistency ≤ 1)
    (h5 : 0 ≤ s.priceValue ∧ s.priceValue ≤ 1)
    (h6 : 0 ≤ s.distance ∧ s.distance ≤ 1)
    (h7 : 0 ≤ s.uniqueness ∧ s.uniqueness ≤ 1) :
    SCORING_WEIGHTS.rating + SCORING_WEIGHTS.reviewCount +
        SCORING_WEIGHTS.recency + SCORING_WEIGHTS.consistency +
        SCORING_WEIGHTS.priceValue + SCORING_WEIGHTS.distance +
        SCORING_WEIGHTS.uniqueness = 1 ∧
      0 ≤ intelligentScoreOf s ∧ intelligentScoreOf s ≤ 1 := by
  refine ⟨by norm_num [SCORING_WEIGHTS], ?_⟩
  unfold intelligentScoreOf
  simp only [SCORING_WEIGHTS]
  apply toFixed3_mem_unit
  · obtain ⟨a1, _⟩ := h1
    obtain ⟨a2, _⟩ := h2
    obtain ⟨a3, _⟩ := h3
    obtain ⟨a4, _⟩ := h4
    obtain ⟨a5, _⟩ := h5
    obtain ⟨a6, _⟩ := h6
    obtain ⟨a7, _⟩ := h7
    linarith
  · obtain ⟨_, b1⟩ := h1
    obtain ⟨_, b2⟩ := h2
    obtain ⟨_, b3⟩ := h3
    obtain ⟨_, b4⟩ := h4
    obtain ⟨_, b5⟩ := h5
    obtain ⟨_, b6⟩ := h6
    obtain ⟨_, b7⟩ := h7
    linarith

/-- Witness for C1 at the concrete score vector with every factor 1/2. -/
theorem claim1_witness :
    ((0:ℚ) ≤ 1/2 ∧ (1:ℚ)/2 ≤ 1) ∧
      (0 ≤ intelligentScoreOf ⟨1/2, 1/2, 1/2, 1/2, 1/2, 1/2, 1/2⟩ ∧
        intelligentScoreOf ⟨1/2, 1/2, 1/2, 1/2, 1/2, 1/2, 1/2⟩ ≤ 1) := by
  have h : (0:ℚ) ≤ 1/2 ∧ (1:ℚ)/2 ≤ 1 := by norm_num
  exact ⟨h, (claim1_intelligentScore_unit ⟨1/2, 1/2, 1/2, 1/2, 1/2, 1/2, 1/2⟩
    h h h h h h h).2⟩

/-- C5: whenever the combined review data contains zero rated reviews
(both sources failed or empty included), the analysis returns the fixed
fallback with `unifiedScore` 0, `confidence` 10 and `dataQuality`
"very low"; the embedded function is total, so it never throws and the
zero-denominator division of the main path is never reached. -/
theorem claim5_zero_reviews_fallback
    (input : List (Platform × ReviewsPayload))
    (restaurantName : Option (List Char))
    (h : ratedReviewCount input restaurantName = 0) :
    (performAdvancedAnalysisWithBalancing input restaurantName).unifiedScore
        = 0 ∧
      (performAdvancedAnalysisWithBalancing input
        restaurantName).confidence = 10 ∧
      (performAdvancedAnalysisWithBalancing input
        restaurantName).dataQuality = "very low".data := by
  unfold performAdvancedAnalysisWithBalancing
  rw [if_pos h]
  exact ⟨rfl, rfl, rfl⟩

/-- Witness for C5: both sources present but empty. -/
theorem claim5_witness :
    ratedReviewCount
        [(Platform.google, ⟨[], none⟩), (Platform.yelp, ⟨[], none⟩)] none
        = 0 ∧
      ((performAdvancedAnalysisWithBalancing
          [(Platform.google, ⟨[], none⟩), (Platform.yelp, ⟨[], none⟩)]
          none).unifiedScore = 0 ∧
        (performAdvancedAnalysisWithBalancing
          [(Platform.google, ⟨[], none⟩), (Platform.yelp, ⟨[], none⟩)]
          none).confidence = 10 ∧
        (performAdvancedAnalysisWithBalancing
          [(Platform.google, ⟨[], none⟩), (Platform.yelp, ⟨[], none⟩)]
          none).dataQuality = "very low".data) :=
  ⟨rfl, claim5_zero_reviews_fallback _ none rfl⟩

/-- Helper: the authenticity score depends on the review only through the
lower-cased text and the reviewer history, because the source lower-cases
the text before every check. -/
theorem calculateAuthenticityScore_congr (r1 r2 : Review)
    (ht : r1.text.map Char.toLower = r2.text.map Char.toLower)
    (hc : r1.user_review_count = r2.user_review_count) :
    calculateAuthenticityScore r1 = calculateAuthenticityScore r2 := by
  unfold calculateAuthenticityScore
  rw [ht, hc]

/-- C7 (code bug): the source lower-cases the text before the `[A-Z]`
capitalisation check, so the excessive-capitalisation penalty can never
fire: an all-caps review scores exactly the same as — not strictly lower
than — its lower-cased twin. -/
theorem claim7_caps_penalty_never_fires :
    calculateAuthenticityScore capsReview
        = calculateAuthenticityScore lowerReview ∧
      ¬ calculateAuthenticityScore capsReview
        < calculateAuthenticityScore lowerReview := by
  have heq : calculateAuthenticityScore capsReview
      = calculateAuthenticityScore lowerReview :=
    calculateAuthenticityScore_congr _ _ (by decide) rfl
  exact ⟨heq, by rw [heq]; exact lt_irrefl _⟩

/-- C9 (code bug): the search cache key omits the cuisine filter, so two
requests that differ only in cuisine share one cache key even though the
cuisine filter changes which restaurants pass `applyEnhancedFilters`. -/
theorem claim9_cacheKey_ignores_cuisine :
    buildSearchCacheKey tacosParamsMexican
        = buildSearchCacheKey tacosParamsThai ∧
      tacosParamsMexican.cuisine ≠ tacosParamsThai.cuisine ∧
      applyEnhancedFilters [taqueriaRecord] (filtersOfParams tacosParamsMexican)
        ≠ applyEnhancedFilters [taqueriaRecord]
          (filtersOfParams tacosParamsThai) := by
  refine ⟨rfl, by decide, ?_⟩
  intro h
  have h1 : applyEnhancedFilters [taqueriaRecord]
      (filtersOfParams tacosParamsMexican) = [taqueriaRecord] := by
    unfold applyEnhancedFilters
    rw [List.filter_cons_of_pos (by decide)]
    rfl
  have h2 : applyEnhancedFilters [taqueriaRecord]
      (filtersOfParams tacosParamsThai) = [] := by
    unfold applyEnhancedFilters
    rw [List.filter_cons_of_neg (by decide)]
    rfl
  rw [h1, h2] at h
  exact List.cons_ne_nil _ _ h

/-- C10: the search result returns at most 12 restaurants, and reports the
full merged count separately as `totalFound`. -/
theorem claim10_top12_and_totalFound (em : ExternalMath)
    (gs : List GoogleListing) (ys : List YelpListing) (p : SearchParams) :
    (searchRestaurants em gs ys p).restaurants.length ≤ 12 ∧
      (searchRestaurants em gs ys p).totalFound
        = (intelligentMergeRestaurants em gs ys).length := by
  constructor
  · show (List.take 12 _).length ≤ 12
    simp [List.length_take]
  · rfl

/-- Helper: `advancedStringSimilarity` of a non-empty string with itself is
exactly 1. -/
theorem advancedStringSimilarity_self (s : List Char) (h : s ≠ []) :
    advancedStringSimilarity s s = 1 := by
  unfold advancedStringSimilarity
  rw [if_neg (by simp [h])]
  simp only [levenshteinDistance_self, Nat.cast_zero, zero_div, sub_zero]
  by_cases ht : (splitOnChar ' ' s).filter (fun t => 1 < t.length) = []
  · rw [if_pos (by simp [ht])]
  · rw [if_neg (by simp [ht])]
    have hfilter : ((splitOnChar ' ' s).filter (fun t => 1 < t.length)).filter
        (fun t => ((splitOnChar ' ' s).filter
          (fun t2 => 1 < t2.length)).contains t) =
        (splitOnChar ' ' s).filter (fun t => 1 < t.length) := by
      apply List.filter_eq_self.mpr
      intro a ha
      simpa using ha
    rw [hfilter]
    have hlen : (((splitOnChar ' ' s).filter
        (fun t => 1 < t.length)).length : ℚ) ≠ 0 := by
      intro hc
      apply ht
      apply List.length_eq_zero.mp
      exact_mod_cast hc
    field_simp
    ring

/-- C8 (amended): `nameSimilarity(x,x) = 1` for every string whose
normalised form is non-empty.  (For a string whose normalised form is
empty — e.g. one consisting only of stop-words or punctuation — the
source returns 0 instead; see the counterexample.) -/
theorem claim8_nameSimilarity_reflexive (x : List Char)
    (h : normalizeRestaurantName x ≠ []) : nameSimilarity x x = 1 := by
  unfold nameSimilarity
  exact advancedStringSimilarity_self _ h

/-- Counterexample to C8 as stated: `"Cafe"` is a non-empty string, but it
normalises to the empty string (the stop-word `cafe` is deleted), and
`nameSimilarity("Cafe","Cafe")` is 0, not 1. -/
theorem claim8_counterexample :
    "Cafe".data ≠ [] ∧ nameSimilarity "Cafe".data "Cafe".data ≠ 1 := by
  constructor
  · decide
  · have hn : normalizeRestaurantName "Cafe".data = [] := by decide
    have h0 : nameSimilarity "Cafe".data "Cafe".data = 0 := by
      unfold nameSimilarity
      rw [hn]
      rfl
    rw [h0]
    norm_num

/-- Witness for the amended C8 at the concrete name `zeta`. -/
theorem claim8_witness :
    normalizeRestaurantName "zeta".data ≠ [] ∧
      nameSimilarity "zeta".data "zeta".data = 1 :=
  ⟨by decide, claim8_nameSimilarity_reflexive _ (by decide)⟩

/-- C6: the trend computation equals its specification: with at least 10
usable reviews (truthy timestamp and non-null rating), sort ascending by
time and compare the mean rating of the first third against the last third
with the ±0.25 thresholds; with fewer than 10 usable reviews the trend is
"stable" regardless of any apparent change. -/
theorem claim6_trend_matches_spec (reviews : List Review) :
    calculateAdvancedTrend reviews = trendSpec reviews := by
  have hlen : (sortedByTime reviews).length ≤ reviews.length := by
    rw [sortedByTime, length_sortByLe]
    exact List.length_filter_le _ _
  by_cases h1 : reviews.length < 10
  · have h2 : (sortedByTime reviews).length < 10 := by omega
    simp only [calculateAdvancedTrend, trendSpec, if_pos h1, if_pos h2]
  · by_cases h2 : (sortedByTime reviews).length < 10
    · simp only [calculateAdvancedTrend, trendSpec, if_neg h1, if_pos h2]
    · have hne1 : ¬ ((sortedByTime reviews).take
          ((sortedByTime reviews).length / 3) = [] ∨
          (sortedByTime reviews).drop
            ((2 * (sortedByTime reviews).length + 2) / 3) = []) := by
        push_neg
        constructor
        · intro hc
          have hl := congrArg List.length hc
          rw [List.length_take] at hl
          simp only [List.length_nil] at hl
          omega
        · intro hc
          have hl := congrArg List.length hc
          rw [List.length_drop] at hl
          simp only [List.length_nil] at hl
          omega
      simp only [calculateAdvancedTrend, trendSpec, if_neg h1, if_neg h2,
        if_neg hne1]

/-- Helper: membership after a `Map.set`. -/
theorem mem_mapSet (m : List (List Char × Restaurant)) (k : List Char)
    (v : Restaurant) (p : List Char × Restaurant) (hp : p ∈ mapSet m k v) :
    p ∈ m ∨ p = (k, v) := by
  unfold mapSet at hp
  by_cases h : m.any (fun q => q.1 = k)
  · rw [if_pos h] at hp
    rcases List.mem_map.mp hp with ⟨q, hq, hqe⟩
    by_cases hk : q.1 = k
    · right
      rw [← hqe]
      simp [hk]
    · left
      rw [← hqe]
      simpa [hk] using hq
  · rw [if_neg h] at hp
    rcases List.mem_append.mp hp with h1 | h1
    · exact Or.inl h1
    · right
      simpa using h1

/-- Helper: `Map.set` on an already-present key updates in place, leaving
the key list (and hence the length) unchanged. -/
theorem mapSet_of_mem (m : List (List Char × Restaurant)) (k : List Char)
    (v : Restaurant) (h : k ∈ m.map Prod.fst) :
    (mapSet m k v).map Prod.fst = m.map Prod.fst ∧
      (mapSet m k v).length = m.length := by
  have hany : m.any (fun p => p.1 = k) = true := by
    rw [List.any_eq_true]
    rcases List.mem_map.mp h with ⟨p, hp, hpk⟩
    exact ⟨p, hp, by simp [hpk]⟩
  unfold mapSet
  rw [if_pos hany]
  constructor
  · rw [List.map_map]
    apply List.map_congr_left
    intro q _
    by_cases hqk : q.1 = k
    · simp [hqk]
    · simp [hqk]
  · rw [List.length_map]

/-- Helper: `Map.set` on a fresh key appends the new entry. -/
theorem mapSet_of_not_mem (m : List (List Char × Restaurant)) (k : List Char)
    (v : Restaurant) (h : ¬ k ∈ m.map Prod.fst) :
    mapSet m k v = m ++ [(k, v)] := by
  have hany : m.any (fun p => p.1 = k) = false := by
    rw [List.any_eq_false]
    intro p hp
    simp only [decide_eq_true_eq]
    intro heq
    exact h (List.mem_map.mpr ⟨p, hp, heq⟩)
  unfold mapSet
  rw [if_neg (by simp [hany])]

/-- Helper: an entry of `mapSet m k v` is either the new `(k, v)` binding
or an untouched entry of `m` whose key differs from `k`. -/
theorem mem_mapSet_strong (m : List (List Char × Restaurant)) (k : List Char)
    (v : Restaurant) (p : List Char × Restaurant) (hp : p ∈ mapSet m k v) :
    p = (k, v) ∨ (p ∈ m ∧ p.1 ≠ k) := by
  unfold mapSet at hp
  by_cases h : m.any (fun q => q.1 = k)
  · rw [if_pos h] at hp
    rcases List.mem_map.mp hp with ⟨q, hq, hqe⟩
    by_cases hk : q.1 = k
    · left
      rw [← hqe]
      simp [hk]
    · right
      constructor
      · rw [← hqe]
        simpa [hk] using hq
      · rw [← hqe]
        simp [hk]
  · rw [if_neg h] at hp
    rcases List.mem_append.mp hp with h1 | h1
    · right
      refine ⟨h1, ?_⟩
      intro hk
      apply h
      rw [List.any_eq_true]
      exact ⟨p, h1, by simp [hk]⟩
    · left
      simpa using h1

/-- Helper: seeding the merge map with an arbitrary Google list produces
one entry per distinct key — the final length is the seed length plus the
number of distinct new keys. -/
theorem seed_length_general : ∀ (gs : List GoogleListing)
    (m : List (List Char × Restaurant)), (m.map Prod.fst).Nodup →
    (gs.foldl stepA m).length =
      ((m.map Prod.fst) ++
        gs.map (fun g => entityKey g.name g.address)).toFinset.card := by
  intro gs
  induction gs with
  | nil =>
      intro m hnd
      simp only [List.foldl_nil, List.map_nil, List.append_nil]
      rw [List.toFinset_card_of_nodup hnd, List.length_map]
  | cons g rest ih =>
      intro m hnd
      rw [List.foldl_cons]
      by_cases hk : entityKey g.name g.address ∈ m.map Prod.fst
      · obtain ⟨hkeys, _⟩ :=
          mapSet_of_mem m (entityKey g.name g.address)
            (enhanceRestaurantData (gPrep g)) hk
      -- (`stepA m g` is definitionally this `mapSet`.)
        have hkeys2 : (stepA m g).map Prod.fst = m.map Prod.fst := hkeys
        have hnd2 : ((stepA m g).map Prod.fst).Nodup := by
          rw [hkeys2]
          exact hnd
        rw [ih (stepA m g) hnd2, hkeys2]
        congr 1
        simp only [List.map_cons, List.toFinset_append, List.toFinset_cons]
        apply Finset.ext
        intro a
        simp only [Finset.mem_union, Finset.mem_insert, List.mem_toFinset]
        constructor
        · tauto
        · rintro (h | rfl | h)
          · tauto
          · exact Or.inl hk
          · tauto
      · have hstep : stepA m g = m ++ [(entityKey g.name g.address,
            enhanceRestaurantData (gPrep g))] :=
          mapSet_of_not_mem m _ _ hk
        have hnd2 : (((m ++ [(entityKey g.name g.address,
            enhanceRestaurantData (gPrep g))]).map Prod.fst)).Nodup := by
          simp only [List.map_append]
          rw [List.nodup_append]
          refine ⟨hnd, List.nodup_singleton _, ?_⟩
          intro a ha hb
          have hab : a = entityKey g.name g.address := by simpa using hb
          rw [hab] at ha
          exact hk ha
        rw [hstep, ih _ hnd2]
        simp only [List.map_append, List.map_cons, List.map_nil,
          List.append_assoc, List.singleton_append]

/-- Helper: every entry of the seeded map carries the enhanced record of
the last Google listing bearing its key (later writes to the same `Map`
key overwrite earlier ones), unless it was in the seed and no listing
bears its key. -/
theorem seed_last_write : ∀ (gs : List GoogleListing)
    (m : List (List Char × Restaurant)) (p : List Char × Restaurant),
    p ∈ gs.foldl stepA m →
    (∃ g, (gs.filter (fun g2 => entityKey g2.name g2.address = p.1)).getLast?
        = some g ∧ p.2 = enhanceRestaurantData (gPrep g) ∧
        p.1 = entityKey g.name g.address) ∨
    (p ∈ m ∧ gs.filter (fun g2 => entityKey g2.name g2.address = p.1) = []) := by
  intro gs
  induction gs with
  | nil =>
      intro m p hp
      right
      exact ⟨by simpa using hp, rfl⟩
  | cons g rest ih =>
      intro m p hp
      rw [List.foldl_cons] at hp
      rcases ih (stepA m g) p hp with ⟨gl, hlast, hval, hkey⟩ | ⟨hpm, hflt⟩
      · left
        refine ⟨gl, ?_, hval, hkey⟩
        rw [List.filter_cons]
        by_cases hc : entityKey g.name g.address = p.1
        · rw [if_pos (by simp [hc])]
          cases hrf : rest.filter
              (fun g2 => decide (entityKey g2.name g2.address = p.1)) with
          | nil =>
              rw [hrf] at hlast
              simp at hlast
          | cons x xs =>
              rw [hrf] at hlast
              rw [List.getLast?_cons_cons]
              exact hlast
        · rw [if_neg (by simp [hc])]
          exact hlast
      · have hpm2 : p ∈ mapSet m (entityKey g.name g.address)
            (enhanceRestaurantData (gPrep g)) := hpm
        rcases mem_mapSet_strong m _ _ p hpm2 with hpe | ⟨hpm3, hpk⟩
        · left
          refine ⟨g, ?_, ?_, ?_⟩
          · have hc : entityKey g.name g.address = p.1 := by rw [hpe]
            rw [List.filter_cons, if_pos (by simp [hc]), hflt]
            rfl
          · rw [hpe]
          · rw [hpe]
        · right
          refine ⟨hpm3, ?_⟩
          rw [List.filter_cons, if_neg ?_]
          · exact hflt
          · simp only [decide_eq_true_eq]
            exact fun h => hpk h.symm

/-- Helper: the seeding pass only produces entities with
`crossPlatformVerified = false`. -/
theorem seed_unverified : ∀ (gs : List GoogleListing)
    (m : List (List Char × Restaurant)),
    (∀ p ∈ m, p.2.crossPlatformVerified = false) →
    ∀ p ∈ gs.foldl stepA m, p.2.crossPlatformVerified = false := by
  intro gs
  induction gs with
  | nil => intro m hm; simpa only [List.foldl_nil] using hm
  | cons g rest ih =>
      intro m hm
      rw [List.foldl_cons]
      apply ih
      intro p hp
      rcases mem_mapSet _ _ _ p hp with h1 | h1
      · exact hm p h1
      · rw [h1]
        rfl

/-- C2 (amended): merging source-A listings with an empty source-B list
yields, for every input list, exactly one merged entity per distinct
normalised name+address key (records sharing a key collapse into one map
slot and the last write wins: each entity is the enhanced record of the
last A listing bearing its key), and every resulting entity has
`crossPlatformVerified = false`.  In particular, when the keys are
pairwise distinct the result has exactly one entity per A record. -/
theorem claim2_one_sided_merge (em : ExternalMath) (gs : List GoogleListing) :
    (intelligentMergeRestaurants em gs []).length
        = (gs.map (fun g => entityKey g.name g.address)).toFinset.card ∧
    (∀ r ∈ intelligentMergeRestaurants em gs [], ∃ g,
      (gs.filter (fun g2 => entityKey g2.name g2.address
          = entityKey r.name r.address)).getLast? = some g ∧
      r = enhanceRestaurantData (gPrep g)) ∧
    ((gs.map (fun g => entityKey g.name g.address)).Nodup →
      (intelligentMergeRestaurants em gs []).length = gs.length) ∧
    ∀ r ∈ intelligentMergeRestaurants em gs [],
      r.crossPlatformVerified = false := by
  have hA : (intelligentMergeRestaurants em gs []).length
      = (gs.map (fun g => entityKey g.name g.address)).toFinset.card := by
    unfold intelligentMergeRestaurants
    rw [List.foldl_nil, List.length_map]
    have h := seed_length_general gs [] (by simp)
    simpa using h
  refine ⟨hA, ?_, ?_, ?_⟩
  · intro r hr
    unfold intelligentMergeRestaurants at hr
    rw [List.foldl_nil] at hr
    rcases List.mem_map.mp hr with ⟨p, hp, hpr⟩
    rcases seed_last_write gs [] p hp with ⟨g, hlast, hval, hkey⟩ | ⟨hpm, _⟩
    · have hr2 : r = enhanceRestaurantData (gPrep g) := by
        rw [← hpr, hval]
      have hkr : entityKey r.name r.address = p.1 := by
        rw [hr2, hkey]
        rfl
      refine ⟨g, ?_, hr2⟩
      simp only [hkr]
      exact hlast
    · simp at hpm
  · intro hnd
    rw [hA, List.toFinset_card_of_nodup hnd, List.length_map]
  · intro r hr
    unfold intelligentMergeRestaurants at hr
    rw [List.foldl_nil] at hr
    rcases List.mem_map.mp hr with ⟨p, hp, hpr⟩
    rw [← hpr]
    exact seed_unverified gs [] (by simp) p hp

/-- Counterexample to C2 as stated: two identical A records (same
normalised name and address) produce a single merged entity, not one per
record. -/
theorem claim2_counterexample :
    [gAlpha, gAlpha].length = 2 ∧
      (intelligentMergeRestaurants emZero [gAlpha, gAlpha] []).length = 1 :=
  ⟨rfl, rfl⟩

/-- Witness for the amended C2: two A records with distinct keys produce
exactly two entities, each with `crossPlatformVerified = false`. -/
theorem claim2_witness :
    ([gAlpha, gBeta].map (fun g => entityKey g.name g.address)).Nodup ∧
      (intelligentMergeRestaurants emZero [gAlpha, gBeta] []).length = 2 ∧
      ∀ r ∈ intelligentMergeRestaurants emZero [gAlpha, gBeta] [],
        r.crossPlatformVerified = false := by
  have hnd : ([gAlpha, gBeta].map
      (fun g => entityKey g.name g.address)).Nodup := by decide
  exact ⟨hnd, (claim2_one_sided_merge emZero [gAlpha, gBeta]).2.2.1 hnd,
    (claim2_one_sided_merge emZero [gAlpha, gBeta]).2.2.2⟩

/-- Helper: invariant of the candidate scan `findBestAux`.  Starting from
`(bk, hi)`, the scan either returns its argument unchanged or returns the
key of some unmatched candidate whose score strictly exceeds `hi`; the
returned running best is an upper bound of `hi` and of the scores of every
unmatched candidate. -/
theorem findBestAux_spec (em : ExternalMath) (y : YelpListing) :
    ∀ (l : List (List Char × Restaurant)) (bk : Option (List Char)) (hi : ℚ),
      (findBestAux em y l (bk, hi) = (bk, hi) ∨
        ∃ k g, (k, g) ∈ l ∧ g.yelpId = none ∧
          findBestAux em y l (bk, hi) =
            (some k, calculateMatchScore em (matchViewOf g) (yelpMatchView y)) ∧
          hi < calculateMatchScore em (matchViewOf g) (yelpMatchView y)) ∧
      hi ≤ (findBestAux em y l (bk, hi)).2 ∧
      ∀ k g, (k, g) ∈ l → g.yelpId = none →
        calculateMatchScore em (matchViewOf g) (yelpMatchView y) ≤
          (findBestAux em y l (bk, hi)).2 := by
  intro l
  induction l with
  | nil =>
      intro bk hi
      refine ⟨Or.inl rfl, le_refl _, ?_⟩
      intro k g hkg
      simp at hkg
  | cons p rest ih =>
      intro bk hi
      obtain ⟨k0, g0⟩ := p
      by_cases hy0 : g0.yelpId ≠ none
      · have hfb : findBestAux em y ((k0, g0) :: rest) (bk, hi) =
            findBestAux em y rest (bk, hi) := by
          simp only [findBestAux, if_pos hy0]
        rw [hfb]
        obtain ⟨ha, hb, hc⟩ := ih bk hi
        refine ⟨?_, hb, ?_⟩
        · rcases ha with h | ⟨k, g, hm, hn, he, hlt⟩
          · exact Or.inl h
          · exact Or.inr ⟨k, g, List.mem_cons_of_mem _ hm, hn, he, hlt⟩
        · intro k g hkg hgn
          rcases List.mem_cons.mp hkg with heq | hm
          · exfalso
            have hg : g = g0 := congrArg Prod.snd heq
            rw [hg] at hgn
            exact hy0 (by rw [hgn])
          · exact hc k g hm hgn
      · have hy0' : g0.yelpId = none := not_not.mp hy0
        by_cases hcmp :
            hi < calculateMatchScore em (matchViewOf g0) (yelpMatchView y)
        · have hfb : findBestAux em y ((k0, g0) :: rest) (bk, hi) =
              findBestAux em y rest (some k0,
                calculateMatchScore em (matchViewOf g0) (yelpMatchView y)) := by
            simp only [findBestAux, if_neg hy0, if_pos hcmp]
          rw [hfb]
          obtain ⟨ha, hb, hc⟩ := ih (some k0)
            (calculateMatchScore em (matchViewOf g0) (yelpMatchView y))
          refine ⟨?_, le_trans (le_of_lt hcmp) hb, ?_⟩
          · rcases ha with h | ⟨k, g, hm, hn, he, hlt⟩
            · exact Or.inr ⟨k0, g0, List.mem_cons_self _ _, hy0', h, hcmp⟩
            · exact Or.inr ⟨k, g, List.mem_cons_of_mem _ hm, hn, he,
                lt_trans hcmp hlt⟩
          · intro k g hkg hgn
            rcases List.mem_cons.mp hkg with heq | hm
            · have hg : g = g0 := congrArg Prod.snd heq
              rw [hg]
              exact hb
            · exact hc k g hm hgn
        · have hfb : findBestAux em y ((k0, g0) :: rest) (bk, hi) =
              findBestAux em y rest (bk, hi) := by
            simp only [findBestAux, if_neg hy0, if_neg hcmp]
          rw [hfb]
          obtain ⟨ha, hb, hc⟩ := ih bk hi
          refine ⟨?_, hb, ?_⟩
          · rcases ha with h | ⟨k, g, hm, hn, he, hlt⟩
            · exact Or.inl h
            · exact Or.inr ⟨k, g, List.mem_cons_of_mem _ hm, hn, he, hlt⟩
          · intro k g hkg hgn
            rcases List.mem_cons.mp hkg with heq | hm
            · have hg : g = g0 := congrArg Prod.snd heq
              rw [hg]
              exact le_trans (not_lt.mp hcmp) hb
            · exact hc k g hm hgn

/-- C3 (amended): in the merge loop, a Yelp record is attached to an entity
only when that entity has no Yelp sub-record yet and its composite match
score `0.55·name + 0.35·address + 0.10·geo` is the highest over all
not-yet-matched entities and strictly exceeds the source's fixed minimum
0.60 (not 0.65, which appears only in the dead helper
`findBestYelpMatch`); when no candidate exceeds 0.60, the record becomes a
standalone entity unless its normalised key is already present, in which
case it is dropped. -/
theorem claim3_match_requires_best_over_threshold (em : ExternalMath)
    (m : List (List Char × Restaurant)) (y : YelpListing) :
    ((findBestKey em m y).1 = none →
      (∀ k g, (k, g) ∈ m → g.yelpId = none →
        calculateMatchScore em (matchViewOf g) (yelpMatchView y) ≤ 3/5) ∧
      stepB em m y = (if m.any (fun p => p.1 = entityKey y.name y.address)
        then m
        else m ++ [(entityKey y.name y.address,
          enhanceRestaurantData (yPrep y))])) ∧
    ∀ k, (findBestKey em m y).1 = some k →
      (∃ g, (k, g) ∈ m ∧ g.yelpId = none ∧
        3/5 < calculateMatchScore em (matchViewOf g) (yelpMatchView y) ∧
        (findBestKey em m y).2 =
          calculateMatchScore em (matchViewOf g) (yelpMatchView y) ∧
        ∀ k2 g2, (k2, g2) ∈ m → g2.yelpId = none →
          calculateMatchScore em (matchViewOf g2) (yelpMatchView y) ≤
            calculateMatchScore em (matchViewOf g) (yelpMatchView y)) ∧
      stepB em m y = m.map (fun p => if p.1 = k then (k, attachYelp p.2 y)
        else p) := by
  have hdef : findBestKey em m y = findBestAux em y m (none, 3/5) := rfl
  obtain ⟨ha, hb, hc⟩ := findBestAux_spec em y m none (3/5)
  constructor
  · intro hnone
    constructor
    · intro k g hkg hgn
      rcases ha with h | ⟨k2, g2, _, _, he2, _⟩
      · have h2 : (findBestKey em m y).2 = 3/5 := by rw [hdef, h]
        calc calculateMatchScore em (matchViewOf g) (yelpMatchView y)
            ≤ (findBestAux em y m (none, 3/5)).2 := hc k g hkg hgn
          _ = 3/5 := by rw [← hdef, h2]
      · exfalso
        have : (findBestKey em m y).1 = some k2 := by rw [hdef, he2]
        rw [hnone] at this
        exact Option.noConfusion this
    · simp only [stepB, hnone]
  · intro k hsome
    rcases ha with h | ⟨k2, g2, hm2, hn2, he2, hlt2⟩
    · exfalso
      have : (findBestKey em m y).1 = none := by rw [hdef, h]
      rw [hsome] at this
      exact Option.noConfusion this
    · have hk1 : (findBestKey em m y).1 = some k2 := by rw [hdef, he2]
      rw [hsome] at hk1
      have hkk : k2 = k := by
        injection hk1 with hx
        exact hx.symm
      subst hkk
      refine ⟨⟨g2, hm2, hn2, hlt2, ?_, ?_⟩, ?_⟩
      · rw [hdef, he2]
      · intro k3 g3 h3 hn3
        calc calculateMatchScore em (matchViewOf g3) (yelpMatchView y)
            ≤ (findBestAux em y m (none, 3/5)).2 := hc k3 g3 h3 hn3
          _ = calculateMatchScore em (matchViewOf g2) (yelpMatchView y) := by
              rw [he2]
      · simp only [stepB, hsome]

/-- Helper: concrete name similarity of `zeta` with itself. -/
theorem nameSimilarity_zeta : nameSimilarity "zeta".data "zeta".data = 1 := by
  unfold nameSimilarity
  rw [show normalizeRestaurantName "zeta".data = "zeta".data from by decide]
  exact advancedStringSimilarity_self _ (by decide)

/-- Helper: concrete address similarity of `abcde` with itself. -/
theorem addrSimilarity_abcde :
    calculateAddressSimilarity "abcde".data "abcde".data = 1 := by
  unfold calculateAddressSimilarity
  rw [if_neg (by decide)]
  rw [show (normalizeAddress "abcde".data).takeWhile (fun c => c ≠ ',')
    = "abcde".data from by decide]
  exact advancedStringSimilarity_self _ (by decide)

/-- Helper: concrete string similarity of `abcde` and `abxyz`: edit
distance 3 over length 5 gives 0.4, no token overlap, blend
`0.4·0.6 + 0·0.4 = 0.24`. -/
theorem advSimilarity_abcde_abxyz :
    advancedStringSimilarity "abcde".data "abxyz".data = 6/25 := by
  unfold advancedStringSimilarity
  rw [if_neg (by decide)]
  simp only [show levenshteinDistance "abcde".data "abxyz".data = 3
      from by decide,
    show (splitOnChar ' ' "abcde".data).filter (fun t => 1 < t.length)
      = ["abcde".data] from by decide,
    show (splitOnChar ' ' "abxyz".data).filter (fun t => 1 < t.length)
      = ["abxyz".data] from by decide]
  rw [if_neg (by simp)]
  simp only [show (["abcde".data] : List (List Char)).filter
      (fun t => (["abxyz".data] : List (List Char)).contains t) = []
      from by decide]
  simp only [List.length_nil, List.length_cons,
    show "abcde".data.length = 5 from rfl,
    show "abxyz".data.length = 5 from rfl]
  norm_num

/-- Helper: concrete address similarity of `abcde` and `abxyz`. -/
theorem addrSimilarity_abcde_abxyz :
    calculateAddressSimilarity "abcde".data "abxyz".data = 6/25 := by
  unfold calculateAddressSimilarity
  rw [if_neg (by decide)]
  rw [show (normalizeAddress "abcde".data).takeWhile (fun c => c ≠ ',')
      = "abcde".data from by decide,
    show (normalizeAddress "abxyz".data).takeWhile (fun c => c ≠ ',')
      = "abxyz".data from by decide]
  exact advSimilarity_abcde_abxyz

/-- Helper: the match score of the `c3Google`-seeded entity against
`c3Yelp` is exactly 0.634. -/
theorem matchScore_c3 :
    calculateMatchScore emZero
      (matchViewOf (enhanceRestaurantData (gPrep c3Google)))
      (yelpMatchView c3Yelp) = 317/500 := by
  rw [show matchViewOf (enhanceRestaurantData (gPrep c3Google))
      = ⟨"zeta".data, "abcde".data, none⟩ from rfl,
    show yelpMatchView c3Yelp = ⟨"zeta".data, "abxyz".data, none⟩ from rfl]
  show nameSimilarity "zeta".data "zeta".data * (55/100) +
      calculateAddressSimilarity "abcde".data "abxyz".data * (35/100) +
      calculateGeoSimilarity emZero none none * (10/100) = 317/500
  rw [nameSimilarity_zeta, addrSimilarity_abcde_abxyz,
    show calculateGeoSimilarity emZero none none = (0:ℚ) from rfl]
  norm_num

/-- Helper: the match score of the `c3Google`-seeded entity against
`c3YelpExact` (same name, same address) is exactly 0.9. -/
theorem matchScore_c3_exact :
    calculateMatchScore emZero
      (matchViewOf (enhanceRestaurantData (gPrep c3Google)))
      (yelpMatchView c3YelpExact) = 9/10 := by
  rw [show matchViewOf (enhanceRestaurantData (gPrep c3Google))
      = ⟨"zeta".data, "abcde".data, none⟩ from rfl,
    show yelpMatchView c3YelpExact = ⟨"zeta".data, "abcde".data, none⟩
      from rfl]
  show nameSimilarity "zeta".data "zeta".data * (55/100) +
      calculateAddressSimilarity "abcde".data "abcde".data * (35/100) +
      calculateGeoSimilarity emZero none none * (10/100) = 9/10
  rw [nameSimilarity_zeta, addrSimilarity_abcde,
    show calculateGeoSimilarity emZero none none = (0:ℚ) from rfl]
  norm_num

/-- Helper: the seeded map for the single listing `c3Google`. -/
theorem seed_c3 : [c3Google].foldl stepA []
    = [(entityKey "zeta".data "abcde".data,
        enhanceRestaurantData (gPrep c3Google))] := by
  simp [stepA, mapSet, c3Google]

/-- Counterexample to C3 as stated: a Yelp record whose best composite
match score is 0.634 — above the source's real threshold 0.60 but not
above the claimed threshold 0.65 — is attached to the entity (one merged,
cross-verified entity) instead of becoming a standalone entity as the
claim requires. -/
theorem claim3_counterexample :
    calculateMatchScore emZero
        (matchViewOf (enhanceRestaurantData (gPrep c3Google)))
        (yelpMatchView c3Yelp) = 317/500 ∧
      ¬ (65/100 : ℚ) < 317/500 ∧
      (intelligentMergeRestaurants emZero [c3Google] [c3Yelp]).length = 1 ∧
      ∀ r ∈ intelligentMergeRestaurants emZero [c3Google] [c3Yelp],
        r.crossPlatformVerified = true := by
  have hfb : findBestKey emZero
      [(entityKey "zeta".data "abcde".data,
        enhanceRestaurantData (gPrep c3Google))] c3Yelp
      = (some (entityKey "zeta".data "abcde".data), 317/500) := by
    show findBestAux emZero c3Yelp _ (none, 3/5) = _
    simp only [findBestAux]
    rw [if_neg (by simp [show (enhanceRestaurantData
      (gPrep c3Google)).yelpId = none from rfl])]
    rw [matchScore_c3, if_pos (by norm_num)]
  have hmerge : intelligentMergeRestaurants emZero [c3Google] [c3Yelp]
      = [attachYelp (enhanceRestaurantData (gPrep c3Google)) c3Yelp] := by
    unfold intelligentMergeRestaurants
    rw [seed_c3]
    simp only [List.foldl_cons, List.foldl_nil, stepB, hfb]
    simp
  refine ⟨matchScore_c3, by norm_num, ?_, ?_⟩
  · rw [hmerge]
    rfl
  · intro r hr
    rw [hmerge] at hr
    have : r = attachYelp (enhanceRestaurantData (gPrep c3Google)) c3Yelp := by
      simpa using hr
    rw [this]
    rfl

/-- Witness for the amended C3: a Yelp record with score 0.9 against the
single seeded entity is matched to it, the score exceeds 0.60 and is
maximal, and `stepB` performs the attachment. -/
theorem claim3_witness :
    (findBestKey emZero
        [(entityKey "zeta".data "abcde".data,
          enhanceRestaurantData (gPrep c3Google))] c3YelpExact).1 =
      some (entityKey "zeta".data "abcde".data) ∧
    ((∃ g, (entityKey "zeta".data "abcde".data, g) ∈
        [(entityKey "zeta".data "abcde".data,
          enhanceRestaurantData (gPrep c3Google))] ∧ g.yelpId = none ∧
        3/5 < calculateMatchScore emZero (matchViewOf g)
          (yelpMatchView c3YelpExact) ∧
        (findBestKey emZero
          [(entityKey "zeta".data "abcde".data,
            enhanceRestaurantData (gPrep c3Google))] c3YelpExact).2 =
          calculateMatchScore emZero (matchViewOf g)
            (yelpMatchView c3YelpExact) ∧
        ∀ k2 g2, (k2, g2) ∈
            [(entityKey "zeta".data "abcde".data,
              enhanceRestaurantData (gPrep c3Google))] → g2.yelpId = none →
          calculateMatchScore emZero (matchViewOf g2)
              (yelpMatchView c3YelpExact) ≤
            calculateMatchScore emZero (matchViewOf g)
              (yelpMatchView c3YelpExact)) ∧
      stepB emZero
        [(entityKey "zeta".data "abcde".data,
          enhanceRestaurantData (gPrep c3Google))] c3YelpExact =
        [(entityKey "zeta".data "abcde".data,
          enhanceRestaurantData (gPrep c3Google))].map
          (fun p => if p.1 = entityKey "zeta".data "abcde".data then
            (entityKey "zeta".data "abcde".data, attachYelp p.2 c3YelpExact)
          else p)) := by
  have hfb : (findBestKey emZero
      [(entityKey "zeta".data "abcde".data,
        enhanceRestaurantData (gPrep c3Google))] c3YelpExact).1 =
      some (entityKey "zeta".data "abcde".data) := by
    have h : findBestKey emZero
        [(entityKey "zeta".data "abcde".data,
          enhanceRestaurantData (gPrep c3Google))] c3YelpExact
        = (some (entityKey "zeta".data "abcde".data), 9/10) := by
      show findBestAux emZero c3YelpExact _ (none, 3/5) = _
      simp only [findBestAux]
      rw [if_neg (by simp [show (enhanceRestaurantData
        (gPrep c3Google)).yelpId = none from rfl])]
      rw [matchScore_c3_exact, if_pos (by norm_num)]
    rw [h]
  exact ⟨hfb, (claim3_match_requires_best_over_threshold emZero _
    c3YelpExact).2 _ hfb⟩

/-- Helper: a duplicate-free list over the two platform names has at most
two elements. -/
theorem two_valued_nodup_length (rep : List (List Char)) (hd : rep.Nodup)
    (hv : ∀ p ∈ rep, p = "google".data ∨ p = "yelp".data) :
    rep.length ≤ 2 := by
  have hsub : rep ⊆ ["google".data, "yelp".data] := by
    intro p hp
    rcases hv p hp with h | h <;> simp [h]
  have := (List.Nodup.subperm hd hsub).length_le
  simpa using this

/-- Helper: invariants of the platform-representation pass.  When all
reviews come from the two platforms, the pass keeps the selection and
representation lists aligned and duplicate-free, every represented
platform has a selected review, the represented set only grows, and after
the pass the platform of every processed review is represented (the
5-slot guard never bites because at most two platforms exist). -/
theorem pickPlatformReps_spec :
    ∀ (l : List ScoredReview) (sel : List BalancedReview)
      (rep : List (List Char)),
      (∀ sr ∈ l, sr.platform = "google".data ∨ sr.platform = "yelp".data) →
      (∀ p ∈ rep, p = "google".data ∨ p = "yelp".data) →
      rep.Nodup →
      sel.length = rep.length →
      (∀ p ∈ rep, ∃ b ∈ sel, b.platform = p) →
      (∀ p ∈ (pickPlatformReps l (sel, rep)).2,
          p = "google".data ∨ p = "yelp".data) ∧
        (pickPlatformReps l (sel, rep)).2.Nodup ∧
        (pickPlatformReps l (sel, rep)).1.length =
          (pickPlatformReps l (sel, rep)).2.length ∧
        (∀ p ∈ (pickPlatformReps l (sel, rep)).2,
          ∃ b ∈ (pickPlatformReps l (sel, rep)).1, b.platform = p) ∧
        (∀ p ∈ rep, p ∈ (pickPlatformReps l (sel, rep)).2) ∧
        (∀ sr ∈ l, sr.platform ∈ (pickPlatformReps l (sel, rep)).2) := by
  intro l
  induction l with
  | nil =>
      intro sel rep h1 h2 h3 h4 h5
      refine ⟨h2, h3, h4, h5, fun p hp => hp, ?_⟩
      intro sr hsr
      simp at hsr
  | cons sr rest ih =>
      intro sel rep h1 h2 h3 h4 h5
      have hplat : sr.platform = "google".data ∨ sr.platform = "yelp".data :=
        h1 sr (List.mem_cons_self _ _)
      by_cases hc : sel.length < 5 ∧ ¬ sr.platform ∈ rep
      · have hstep : pickPlatformReps (sr :: rest) (sel, rep) =
            pickPlatformReps rest
              (sel ++ [toBalanced sr], rep ++ [sr.platform]) := by
          simp only [pickPlatformReps, if_pos hc]
        rw [hstep]
        have h2' : ∀ p ∈ rep ++ [sr.platform],
            p = "google".data ∨ p = "yelp".data := by
          intro p hp
          rcases List.mem_append.mp hp with h | h
          · exact h2 p h
          · have : p = sr.platform := by simpa using h
            rw [this]
            exact hplat
        have h3' : (rep ++ [sr.platform]).Nodup := by
          rw [List.nodup_append]
          refine ⟨h3, List.nodup_singleton _, ?_⟩
          intro a ha hb
          have : a = sr.platform := by simpa using hb
          rw [this] at ha
          exact hc.2 ha
        have h4' : (sel ++ [toBalanced sr]).length =
            (rep ++ [sr.platform]).length := by
          simp [h4]
        have h5' : ∀ p ∈ rep ++ [sr.platform],
            ∃ b ∈ sel ++ [toBalanced sr], b.platform = p := by
          intro p hp
          rcases List.mem_append.mp hp with h | h
          · obtain ⟨b, hb, hbp⟩ := h5 p h
            exact ⟨b, List.mem_append_left _ hb, hbp⟩
          · have : p = sr.platform := by simpa using h
            rw [this]
            exact ⟨toBalanced sr, List.mem_append_right _ (by simp), rfl⟩
        obtain ⟨iA, iB, iC, iD, iE, iF⟩ :=
          ih (sel ++ [toBalanced sr]) (rep ++ [sr.platform]) (fun x hx =>
            h1 x (List.mem_cons_of_mem _ hx)) h2' h3' h4' h5'
        refine ⟨iA, iB, iC, iD, ?_, ?_⟩
        · intro p hp
          exact iE p (List.mem_append_left _ hp)
        · intro x hx
          rcases List.mem_cons.mp hx with heq | hm
          · rw [heq]
            exact iE sr.platform (List.mem_append_right _ (by simp))
          · exact iF x hm
      · have hstep : pickPlatformReps (sr :: rest) (sel, rep) =
            pickPlatformReps rest (sel, rep) := by
          simp only [pickPlatformReps, if_neg hc]
        rw [hstep]
        obtain ⟨iA, iB, iC, iD, iE, iF⟩ :=
          ih sel rep (fun x hx => h1 x (List.mem_cons_of_mem _ hx))
            h2 h3 h4 h5
        refine ⟨iA, iB, iC, iD, iE, ?_⟩
        intro x hx
        rcases List.mem_cons.mp hx with heq | hm
        · have hlt : sel.length < 5 := by
            have := two_valued_nodup_length rep h3 h2
            omega
          have hin : sr.platform ∈ rep := by
            by_contra hno
            exact hc ⟨hlt, hno⟩
          rw [heq]
          exact iE sr.platform hin
        · exact iF x hm

/-- Helper: the fill pass keeps the selection within the 5-slot budget. -/
theorem fillRemaining_length : ∀ (l : List ScoredReview)
    (sel : List BalancedReview), sel.length ≤ 5 →
    (fillRemaining l sel).length ≤ 5 := by
  intro l
  induction l with
  | nil => intro sel h; simpa [fillRemaining] using h
  | cons sr rest ih =>
      intro sel h
      simp only [fillRemaining]
      by_cases h5 : 5 ≤ sel.length
      · rw [if_pos h5]
        exact h
      · rw [if_neg h5]
        by_cases hd : alreadyAdded sel sr = true
        · rw [if_pos hd]
          exact ih sel h
        · rw [if_neg hd]
          apply ih
          simp only [List.length_append, List.length_cons, List.length_nil]
          omega

/-- Helper: the fill pass only appends, so selected reviews survive it. -/
theorem fillRemaining_mono : ∀ (l : List ScoredReview)
    (sel : List BalancedReview) (b : BalancedReview), b ∈ sel →
    b ∈ fillRemaining l sel := by
  intro l
  induction l with
  | nil => intro sel b h; simpa [fillRemaining] using h
  | cons sr rest ih =>
      intro sel b h
      simp only [fillRemaining]
      by_cases h5 : 5 ≤ sel.length
      · rw [if_pos h5]
        exact h
      · rw [if_neg h5]
        by_cases hd : alreadyAdded sel sr = true
        · rw [if_pos hd]
          exact ih sel b h
        · rw [if_neg hd]
          exact ih _ b (List.mem_append_left _ h)

/-- C4: the balanced top-review list has at most 5 entries and, whenever
both sources contribute at least one review (with their platform tags
either absent or matching their source), it contains at least one review
from each source — even when every review of one source individually
outranks every review of the other. -/
theorem claim4_balanced_top_reviews (pm : PlatformReviews)
    (hg : ∀ r ∈ pm.google,
      r.platformSource = none ∨ r.platformSource = some "google".data)
    (hy : ∀ r ∈ pm.yelp,
      r.platformSource = none ∨ r.platformSource = some "yelp".data) :
    (createBalancedTopReviews pm).length ≤ 5 ∧
      (pm.google ≠ [] →
        ∃ b ∈ createBalancedTopReviews pm, b.platform = "google".data) ∧
      (pm.yelp ≠ [] →
        ∃ b ∈ createBalancedTopReviews pm, b.platform = "yelp".data) := by
  unfold createBalancedTopReviews
  by_cases he : pm.google.map (toScored "google".data) ++
      pm.yelp.map (toScored "yelp".data) = []
  · rw [if_pos he]
    obtain ⟨heg, hey⟩ := List.append_eq_nil.mp he
    have hg0 : pm.google = [] := List.map_eq_nil_iff.mp heg
    have hy0 : pm.yelp = [] := List.map_eq_nil_iff.mp hey
    refine ⟨by simp, ?_, ?_⟩
    · intro hne
      exact (hne hg0).elim
    · intro hne
      exact (hne hy0).elim
  · rw [if_neg he]
    have hPall : ∀ sr ∈ sortByLe sortScoreDescLe
        (pm.google.map (toScored "google".data) ++
          pm.yelp.map (toScored "yelp".data)),
        sr.platform = "google".data ∨ sr.platform = "yelp".data := by
      intro sr hsr
      rw [mem_sortByLe] at hsr
      rcases List.mem_append.mp hsr with h | h
      · rcases List.mem_map.mp h with ⟨r, hr, hre⟩
        left
        rw [← hre]
        rcases hg r hr with h1 | h1
        · simp only [toScored, jsOrS, h1]
        · simp only [toScored, jsOrS, h1]
          rw [if_neg (by decide)]
      · rcases List.mem_map.mp h with ⟨r, hr, hre⟩
        right
        rw [← hre]
        rcases hy r hr with h1 | h1
        · simp only [toScored, jsOrS, h1]
        · simp only [toScored, jsOrS, h1]
          rw [if_neg (by decide)]
    obtain ⟨iA, iB, iC, iD, _, iF⟩ := pickPlatformReps_spec
      (sortByLe sortScoreDescLe (pm.google.map (toScored "google".data) ++
        pm.yelp.map (toScored "yelp".data))) [] [] hPall
      (by simp) (by simp) (by simp) (by simp)
    refine ⟨?_, ?_, ?_⟩
    · apply fillRemaining_length
      rw [iC]
      have := two_valued_nodup_length _ iB iA
      omega
    · intro hne
      obtain ⟨r, hr⟩ := List.exists_mem_of_ne_nil _ hne
      have hmem : toScored "google".data r ∈ sortByLe sortScoreDescLe
          (pm.google.map (toScored "google".data) ++
            pm.yelp.map (toScored "yelp".data)) := by
        rw [mem_sortByLe]
        exact List.mem_append_left _ (List.mem_map.mpr ⟨r, hr, rfl⟩)
      have hplat : (toScored "google".data r).platform = "google".data := by
        rcases hg r hr with h1 | h1
        · simp only [toScored, jsOrS, h1]
        · simp only [toScored, jsOrS, h1]
          rw [if_neg (by decide)]
      have hin2 := iF _ hmem
      rw [hplat] at hin2
      obtain ⟨b, hb, hbp⟩ := iD _ hin2
      exact ⟨b, fillRemaining_mono _ _ _ hb, hbp⟩
    · intro hne
      obtain ⟨r, hr⟩ := List.exists_mem_of_ne_nil _ hne
      have hmem : toScored "yelp".data r ∈ sortByLe sortScoreDescLe
          (pm.google.map (toScored "google".data) ++
            pm.yelp.map (toScored "yelp".data)) := by
        rw [mem_sortByLe]
        exact List.mem_append_right _ (List.mem_map.mpr ⟨r, hr, rfl⟩)
      have hplat : (toScored "yelp".data r).platform = "yelp".data := by
        rcases hy r hr with h1 | h1
        · simp only [toScored, jsOrS, h1]
        · simp only [toScored, jsOrS, h1]
          rw [if_neg (by decide)]
      have hin2 := iF _ hmem
      rw [hplat] at hin2
      obtain ⟨b, hb, hbp⟩ := iD _ hin2
      exact ⟨b, fillRemaining_mono _ _ _ hb, hbp⟩

/-- Witness for C4 at the specification's own example: two rating-5
source-A reviews and one rating-3 source-B review; the result still
contains a source-B review. -/
theorem claim4_witness :
    c4Map.google ≠ [] ∧ c4Map.yelp ≠ [] ∧
      (createBalancedTopReviews c4Map).length ≤ 5 ∧
      (∃ b ∈ createBalancedTopReviews c4Map, b.platform = "google".data) ∧
      (∃ b ∈ createBalancedTopReviews c4Map, b.platform = "yelp".data) := by
  have h := claim4_balanced_top_reviews c4Map (by decide) (by decide)
  exact ⟨by decide, by decide, h.1, h.2.1 (by decide), h.2.2 (by decide)⟩
